import Mathlib

/-!
Verification of a bytecode compiler and virtual machine for a small
scripting language.  The Lean definitions below are a shallow embedding of
the Rust sources: `compiler/symbol_table.rs`, `compiler/op_code.rs`,
`compiler/compiler.rs`, `compiler/vm.rs`, `object/object.rs` and
`compiler/main.rs`.  Rust `i64` values are modelled as `Int` with explicit
range checks where overflow matters; fallible operations return an
`ok`/`err`/`panic` result type (`panic` models a Rust panic/abort, `err` a
returned `Err` value); fixed-capacity arrays are lists whose out-of-bounds
accesses are modelled as panics.
-/

set_option maxHeartbeats 1600000
set_option maxRecDepth 10000

namespace Monkey

/-- The i64 range bounds used by Rust's 64-bit signed arithmetic. -/
def i64Min : Int := -9223372036854775808

def i64Max : Int := 9223372036854775807

/-- `inI64 n` holds when `n` fits in a Rust `i64`. -/
def inI64 (n : Int) : Bool := decide (i64Min ≤ n) && decide (n ≤ i64Max)

/-! ## Symbol table (compiler/symbol_table.rs) -/

/-- `SymbolScope` from symbol_table.rs. -/
inductive SymbolScope where
  | Local
  | Global
  | Builtin
  | Free
  | Function
deriving DecidableEq, Repr

/-- `Symbol` from symbol_table.rs: `{ name, scope, index }`. -/
structure Symbol where
  name : String
  scope : SymbolScope
  index : Nat
deriving DecidableEq, Repr

/-- `SymbolTable` from symbol_table.rs: a map of symbols, the free-symbol
list, the `define` count, and an optional enclosing table.  The Rust
`HashMap` is modelled as an association list where the most recent
insertion shadows older ones; `resolve` takes the first match. -/
inductive SymbolTable where
  | mk (symbols : List (String × Symbol)) (freeSymbols : List Symbol)
      (numDefinitions : Nat) (outer : Option SymbolTable)

namespace SymbolTable

def symbols : SymbolTable → List (String × Symbol)
  | .mk s _ _ _ => s

def freeSymbols : SymbolTable → List Symbol
  | .mk _ f _ _ => f

def numDefinitions : SymbolTable → Nat
  | .mk _ _ n _ => n

def outer : SymbolTable → Option SymbolTable
  | .mk _ _ _ o => o

/-- `SymbolTable::new`. -/
def new : SymbolTable := .mk [] [] 0 none

/-- `SymbolTable::new_enclosed`. -/
def newEnclosed (o : SymbolTable) : SymbolTable := .mk [] [] 0 (some o)

/-- `HashMap::insert` on the symbol map: the new binding shadows any prior
binding of the same name. -/
def insertSym (t : SymbolTable) (name : String) (sym : Symbol) : SymbolTable :=
  .mk ((name, sym) :: t.symbols) t.freeSymbols t.numDefinitions t.outer

/-- Lookup in the symbol map (`self.symbols.borrow().get(name)`). -/
def lookupSym (t : SymbolTable) (name : String) : Option Symbol :=
  (t.symbols.find? (fun p => p.1 = name)).map (·.2)

/-- `SymbolTable::define`: scope is Local when there is an enclosing table,
Global otherwise; the index is the current `num_definitions`, which is then
incremented. -/
def define (t : SymbolTable) (name : String) : Symbol × SymbolTable :=
  let scope := if t.outer.isSome then SymbolScope.Local else SymbolScope.Global
  let sym : Symbol := ⟨name, scope, t.numDefinitions⟩
  let t' := t.insertSym name sym
  (sym, .mk t'.symbols t'.freeSymbols (t.numDefinitions + 1) t'.outer)

/-- `SymbolTable::define_builtin`: caller-supplied index, `num_definitions`
untouched. -/
def defineBuiltin (t : SymbolTable) (index : Nat) (name : String) :
    Symbol × SymbolTable :=
  let sym : Symbol := ⟨name, SymbolScope.Builtin, index⟩
  (sym, t.insertSym name sym)

/-- `SymbolTable::define_function_name`: scope Function, index 0,
`num_definitions` untouched. -/
def defineFunctionName (t : SymbolTable) (name : String) :
    Symbol × SymbolTable :=
  let sym : Symbol := ⟨name, SymbolScope.Function, 0⟩
  (sym, t.insertSym name sym)

/-- `SymbolTable::define_free`: appends the original symbol to the free
list and caches a Free symbol in the map. -/
def defineFree (t : SymbolTable) (original : Symbol) : Symbol × SymbolTable :=
  let frees := t.freeSymbols ++ [original]
  let sym : Symbol := ⟨original.name, SymbolScope.Free, frees.length - 1⟩
  let t' := SymbolTable.mk t.symbols frees t.numDefinitions t.outer
  (sym, t'.insertSym original.name sym)

/-- `SymbolTable::define_free_checked`. -/
def defineFreeChecked (t : SymbolTable) (original : Symbol) :
    Symbol × SymbolTable :=
  match t.lookupSym original.name with
  | some existing => (existing, t)
  | none => t.defineFree original

/-- `SymbolTable::resolve`.  The Rust version mutates tables through
`Rc`/`RefCell` during free-variable promotion; here the updated table chain
is returned alongside the result. -/
def resolve : SymbolTable → String → Option Symbol × SymbolTable
  | t@(.mk _ _ _ none), name =>
    match t.lookupSym name with
    | some sym => (some sym, t)
    | none => (none, t)
  | t@(.mk syms frees nd (some o)), name =>
    match t.lookupSym name with
    | some sym => (some sym, t)
    | none =>
      let (res, o') := resolve o name
      let t' := SymbolTable.mk syms frees nd (some o')
      match res with
      | some sym =>
        match sym.scope with
        | .Local =>
          let (s, t'') := t'.defineFreeChecked sym
          (some s, t'')
        | .Free =>
          let (s, t'') := t'.defineFreeChecked sym
          (some s, t'')
        | _ => (some sym, t')
      | none => (none, t')

end SymbolTable

/-! ## Opcodes and instruction encoding (compiler/op_code.rs) -/

/-- The opcode set from op_code.rs.  The variants `OpModulo` and
`OpTailCall` are referenced by compiler.rs and vm.rs but their enum
declarations are not present in the available op_code.rs text; they are
modelled from the spec (§4.1: `Modulo` with no operands, `TailCall` with
one 1-byte operand) and appended after `OpCurrentClosure` in the byte
numbering. -/
inductive Opcode where
  | OpConst
  | OpAdd
  | OpPop
  | OpSub
  | OpMul
  | OpDiv
  | OpTrue
  | OpFalse
  | OpEqual
  | OpNotEqual
  | OpGreaterThan
  | OpMinus
  | OpBang
  | OpJumpNotTruthy
  | OpJump
  | OpNull
  | OpGetGlobal
  | OpSetGlobal
  | OpArray
  | OpHash
  | OpIndex
  | OpCall
  | OpReturnValue
  | OpReturn
  | OpGetLocal
  | OpSetLocal
  | OpGetBuiltin
  | OpClosure
  | OpGetFree
  | OpCurrentClosure
  | OpModulo
  | OpTailCall
deriving DecidableEq, Repr

namespace Opcode

/-- `op as u8`: the discriminant of each opcode. -/
def toByte : Opcode → Nat
  | .OpConst => 0
  | .OpAdd => 1
  | .OpPop => 2
  | .OpSub => 3
  | .OpMul => 4
  | .OpDiv => 5
  | .OpTrue => 6
  | .OpFalse => 7
  | .OpEqual => 8
  | .OpNotEqual => 9
  | .OpGreaterThan => 10
  | .OpMinus => 11
  | .OpBang => 12
  | .OpJumpNotTruthy => 13
  | .OpJump => 14
  | .OpNull => 15
  | .OpGetGlobal => 16
  | .OpSetGlobal => 17
  | .OpArray => 18
  | .OpHash => 19
  | .OpIndex => 20
  | .OpCall => 21
  | .OpReturnValue => 22
  | .OpReturn => 23
  | .OpGetLocal => 24
  | .OpSetLocal => 25
  | .OpGetBuiltin => 26
  | .OpClosure => 27
  | .OpGetFree => 28
  | .OpCurrentClosure => 29
  | .OpModulo => 30
  | .OpTailCall => 31

/-- `Opcode::try_from(u8)`: accepts bytes below the variant count. -/
def ofByte : Nat → Option Opcode
  | 0 => some .OpConst
  | 1 => some .OpAdd
  | 2 => some .OpPop
  | 3 => some .OpSub
  | 4 => some .OpMul
  | 5 => some .OpDiv
  | 6 => some .OpTrue
  | 7 => some .OpFalse
  | 8 => some .OpEqual
  | 9 => some .OpNotEqual
  | 10 => some .OpGreaterThan
  | 11 => some .OpMinus
  | 12 => some .OpBang
  | 13 => some .OpJumpNotTruthy
  | 14 => some .OpJump
  | 15 => some .OpNull
  | 16 => some .OpGetGlobal
  | 17 => some .OpSetGlobal
  | 18 => some .OpArray
  | 19 => some .OpHash
  | 20 => some .OpIndex
  | 21 => some .OpCall
  | 22 => some .OpReturnValue
  | 23 => some .OpReturn
  | 24 => some .OpGetLocal
  | 25 => some .OpSetLocal
  | 26 => some .OpGetBuiltin
  | 27 => some .OpClosure
  | 28 => some .OpGetFree
  | 29 => some .OpCurrentClosure
  | 30 => some .OpModulo
  | 31 => some .OpTailCall
  | _ => none

/-- Operand widths per opcode, from `definitions()` in op_code.rs
(`OpModulo`/`OpTailCall` widths modelled from the spec §4.1). -/
def widths : Opcode → List Nat
  | .OpConst => [2]
  | .OpJumpNotTruthy => [2]
  | .OpJump => [2]
  | .OpGetGlobal => [2]
  | .OpSetGlobal => [2]
  | .OpArray => [2]
  | .OpHash => [2]
  | .OpCall => [1]
  | .OpGetLocal => [1]
  | .OpSetLocal => [1]
  | .OpGetBuiltin => [1]
  | .OpClosure => [2, 1]
  | .OpGetFree => [1]
  | .OpTailCall => [1]
  | _ => []

end Opcode

/-- Encoding of one operand list against its width list, from the loop in
`make`: a 2-byte operand is truncated as `operand as u16` and written
big-endian, a 1-byte operand as `operand as u8`; any other width is an
error. -/
def encodeOperands : List (Nat × Nat) → Except String (List Nat)
  | [] => .ok []
  | (operand, width) :: rest =>
    match width with
    | 2 => (encodeOperands rest).map
        (fun bs => (operand % 65536) / 256 :: (operand % 65536) % 256 :: bs)
    | 1 => (encodeOperands rest).map (fun bs => operand % 256 :: bs)
    | w => .error ("Unsupported operand width: " ++ toString w)

/-- `make` from op_code.rs: checks the operand count against the opcode's
declared widths, then encodes the opcode byte followed by each operand. -/
def make (op : Opcode) (operands : List Nat) : Except String (List Nat) :=
  let ws := op.widths
  if ws.length ≠ operands.length then
    .error ("Operand count mismatch: expected " ++ toString ws.length ++
      ", got " ++ toString operands.length)
  else
    (encodeOperands (operands.zip ws)).map (fun bs => op.toByte :: bs)

/-- Result of a compiler or VM action: a normal value, a returned error, or
a Rust panic/abort. -/
inductive CRes (α : Type) where
  | ok (a : α)
  | err (e : String)
  | panic (msg : String)
deriving Repr

def CRes.map {α β : Type} (f : α → β) : CRes α → CRes β
  | .ok a => .ok (f a)
  | .err e => .err e
  | .panic m => .panic m

instance : Monad CRes where
  pure a := .ok a
  map := CRes.map
  bind r f := match r with
    | .ok a => f a
    | .err e => .err e
    | .panic m => .panic m

/-- `make_instructions` from op_code.rs: `make(op, operands).unwrap()` —
an encoding error is a panic. -/
def makeInstructions (op : Opcode) (operands : List Nat) : CRes (List Nat) :=
  match make op operands with
  | .ok bs => .ok bs
  | .error e => .panic e

/-- `cast_u8_to_opcode`: panics on a byte with no opcode. -/
def castU8ToOpcode (b : Nat) : CRes Opcode :=
  match Opcode.ofByte b with
  | some op => .ok op
  | none => .panic ("Invalid opcode byte: " ++ toString b)

/-! ## Runtime objects (object/object.rs) -/

/-- `CompiledFunction` from object/object.rs. -/
structure CompiledFn where
  instructions : List Nat
  numLocals : Nat
  numParameters : Nat
deriving DecidableEq, Repr

/-- `HashKey` from object/object.rs: the hashable subset of objects. -/
inductive HashKey where
  | integer (i : Int)
  | boolean (b : Bool)
  | str (s : String)
deriving DecidableEq, Repr

/-- `Object` from object/object.rs (the variants reachable from the
compiler and VM; the tree-walking interpreter's `ReturnValue`, `Function`,
`Error` variants are never produced by this pipeline).  A `Builtin`
function pointer is modelled by its index into the host builtin list. -/
inductive Object where
  | integer (i : Int)
  | boolean (b : Bool)
  | str (s : String)
  | array (elements : List Object)
  | hash (pairs : List (HashKey × Object))
  | null
  | builtin (idx : Nat)
  | compiledFunction (fn : CompiledFn)
  | closureObj (func : CompiledFn) (free : List Object)

/-- `TryFrom<&Object> for HashKey` from object/object.rs. -/
def HashKey.tryFromObject : Object → Option HashKey
  | .integer i => some (.integer i)
  | .boolean b => some (.boolean b)
  | .str s => some (.str s)
  | _ => none

/-! ## AST (parser::ast, as consumed by compiler/compiler.rs) -/

/-- The token kinds the compiler inspects (`TokenKind` in the lexer);
`ASSIGN` stands in for the remaining kinds, which the compiler treats
uniformly as unexpected operators. -/
inductive TokenKind where
  | IDENTIFIER (name : String)
  | MINUS
  | BANG
  | PLUS
  | ASTERISK
  | SLASH
  | PERCENT
  | GT
  | LT
  | GTE
  | LTE
  | EQ
  | NotEq
  | ASSIGN
deriving DecidableEq, Repr

/-- Token display text used in compiler error messages. -/
def TokenKind.text : TokenKind → String
  | .IDENTIFIER n => n
  | .MINUS => "-"
  | .BANG => "!"
  | .PLUS => "+"
  | .ASTERISK => "*"
  | .SLASH => "/"
  | .PERCENT => "%"
  | .GT => ">"
  | .LT => "<"
  | .GTE => ">="
  | .LTE => "<="
  | .EQ => "=="
  | .NotEq => "!="
  | .ASSIGN => "="

mutual

/-- `Expression` from parser::ast (spans dropped; a `BlockStatement` is its
list of statements; function parameters are their identifier names). -/
inductive Expression where
  | ident (name : String)
  | lit (l : Literal)
  | prefixE (op : TokenKind) (operand : Expression)
  | infixE (op : TokenKind) (left : Expression) (right : Expression)
  | ifE (condition : Expression) (consequent : List Statement)
      (alternate : Option (List Statement))
  | whileE (condition : Expression) (body : List Statement)
  | indexE (object : Expression) (index : Expression)
  | funcE (name : String) (params : List String) (body : List Statement)
  | callE (callee : Expression) (arguments : List Expression)

/-- `Literal` from parser::ast. -/
inductive Literal where
  | integer (raw : Int)
  | boolean (raw : Bool)
  | strL (raw : String)
  | arrayL (elements : List Expression)
  | hashL (elements : List (Expression × Expression))

/-- `Statement` from parser::ast.  A Let statement carries the identifier
token, whose kind the compiler checks. -/
inductive Statement where
  | letS (identifier : TokenKind) (expr : Expression)
  | returnS (argument : Expression)
  | exprS (e : Expression)

end

/-- `Node` from parser::ast. -/
inductive Node where
  | program (body : List Statement)
  | statement (s : Statement)
  | expression (e : Expression)

/-! ## Checked i64 arithmetic

Rust integer arithmetic used by the constant folder and the VM.  Overflow
of `+`, `-`, `*` and unary `-` panics in debug builds (the repository's
test profile) and wraps in release; it is modelled as a panic.  Overflow
of `/` and `%` (`i64::MIN / -1`, `i64::MIN % -1`) panics in every build
profile. -/

def i64Add (l r : Int) : CRes Int :=
  if inI64 (l + r) then .ok (l + r) else .panic "attempt to add with overflow"

def i64Sub (l r : Int) : CRes Int :=
  if inI64 (l - r) then .ok (l - r) else .panic "attempt to subtract with overflow"

def i64Mul (l r : Int) : CRes Int :=
  if inI64 (l * r) then .ok (l * r) else .panic "attempt to multiply with overflow"

def i64Neg (l : Int) : CRes Int :=
  if inI64 (-l) then .ok (-l) else .panic "attempt to negate with overflow"

/-- Rust `/` on i64 truncates toward zero; division by zero or
`i64::MIN / -1` panics. -/
def i64Div (l r : Int) : CRes Int :=
  if r = 0 then .panic "attempt to divide by zero"
  else if l = i64Min ∧ r = -1 then .panic "attempt to divide with overflow"
  else .ok (Int.tdiv l r)

/-- Rust `%` on i64 takes the sign of the dividend; `x % 0` or
`i64::MIN % -1` panics. -/
def i64Rem (l r : Int) : CRes Int :=
  if r = 0 then .panic "attempt to calculate the remainder by zero"
  else if l = i64Min ∧ r = -1 then
    .panic "attempt to calculate the remainder with overflow"
  else .ok (Int.tmod l r)

/-! ## Compiler (compiler/compiler.rs) -/

/-- `EmittedInstruction`. -/
structure EmittedInstruction where
  opcode : Opcode
  position : Nat
deriving DecidableEq, Repr

/-- `CompilationScope`. -/
structure Scope where
  instructions : List Nat
  lastInstruction : EmittedInstruction
  previousInstruction : EmittedInstruction
deriving DecidableEq, Repr

/-- `CompilationScope::default()`. -/
def defaultScope : Scope := ⟨[], ⟨.OpNull, 0⟩, ⟨.OpNull, 0⟩⟩

instance : Inhabited Scope := ⟨defaultScope⟩

/-- The compiler state (`Compiler` without its methods). -/
structure CState where
  constants : List Object
  symbolTable : SymbolTable
  scopes : List Scope
  scopeIndex : Nat

/-- `Bytecode`. -/
structure Bytecode where
  instructions : List Nat
  constants : List Object

/-- Modelled from the spec: the host builtin list `BuiltIns` (crate
`object::builtins`, not present in the sources) — an ordered list of
builtin names; §6 of the spec gives the typical set. -/
def builtinNames : List String := ["len", "first", "last", "rest", "push", "puts"]

/-- `Compiler::new()`: one default scope and a symbol table pre-populated
with every host builtin. -/
def compilerNew : CState :=
  { constants := []
    symbolTable := builtinNames.enum.foldl
      (fun t p => (t.defineBuiltin p.1 p.2).2) SymbolTable.new
    scopes := [defaultScope]
    scopeIndex := 0 }

/-- `Compiler::new_with_state(symbol_table, constants)`: starts from
`Compiler::new()` and then overwrites both the constant pool and the
symbol table with the caller's values. -/
def compilerNewWithState (symbolTable : SymbolTable) (constants : List Object) :
    CState :=
  { compilerNew with constants := constants, symbolTable := symbolTable }

namespace CState

/-- `self.scopes[self.scope_index]` (always in bounds in the source). -/
def scope (st : CState) : Scope := st.scopes.getD st.scopeIndex defaultScope

/-- `current_instruction()` — the instruction bytes of the active scope. -/
def currentInstruction (st : CState) : List Nat := st.scope.instructions

def setScope (st : CState) (sc : Scope) : CState :=
  { st with scopes := st.scopes.set st.scopeIndex sc }

/-- `add_constant`: appends and returns the new constant's index. -/
def addConstant (st : CState) (obj : Object) : Nat × CState :=
  (st.constants.length, { st with constants := st.constants ++ [obj] })

/-- `add_instructions`: appends bytes, returning the previous length. -/
def addInstructions (st : CState) (ins : List Nat) : Nat × CState :=
  let pos := st.currentInstruction.length
  (pos, st.setScope { st.scope with instructions := st.scope.instructions ++ ins })

/-- `set_last_instruction`. -/
def setLastInstruction (st : CState) (op : Opcode) (pos : Nat) : CState :=
  st.setScope { st.scope with
    lastInstruction := ⟨op, pos⟩
    previousInstruction := st.scope.lastInstruction }

/-- `emit`: encode, append, record; returns the instruction's position. -/
def emit (st : CState) (op : Opcode) (operands : List Nat) :
    CRes (Nat × CState) := do
  let bs ← makeInstructions op operands
  let (pos, st) := st.addInstructions bs
  pure (pos, st.setLastInstruction op pos)

/-- `emit` with the position discarded. -/
def emitD (st : CState) (op : Opcode) (operands : List Nat) : CRes CState :=
  (st.emit op operands).map (·.2)

/-- `last_instruction_is`. -/
def lastInstructionIs (st : CState) (op : Opcode) : Bool :=
  if st.currentInstruction.isEmpty then false
  else st.scope.lastInstruction.opcode = op

/-- `remove_last_pop`: truncate at the last instruction's offset and
restore the previous instruction as last. -/
def removeLastPop (st : CState) : CState :=
  st.setScope { st.scope with
    instructions := st.scope.instructions.take st.scope.lastInstruction.position
    lastInstruction := st.scope.previousInstruction }

/-- `replace_instruction`: splice `newIns` over the bytes starting at
`pos`. -/
def replaceInstruction (st : CState) (pos : Nat) (newIns : List Nat) : CState :=
  st.setScope { st.scope with
    instructions :=
      st.scope.instructions.take pos ++ newIns ++
        st.scope.instructions.drop (pos + newIns.length) }

/-- `replace_last_pop_with_return`. -/
def replaceLastPopWithReturn (st : CState) : CRes CState := do
  let lastPos := st.scope.lastInstruction.position
  let ins ← makeInstructions .OpReturnValue []
  let st := st.replaceInstruction lastPos ins
  pure (st.setScope { st.scope with
    lastInstruction := { st.scope.lastInstruction with opcode := .OpReturnValue } })

/-- `change_operand`: re-encode the instruction at `pos` with a new
operand (indexing past the buffer or hitting an undecodable byte is a
panic, as in Rust). -/
def changeOperand (st : CState) (pos operand : Nat) : CRes CState := do
  match st.currentInstruction.get? pos with
  | none => .panic "index out of bounds"
  | some b => do
    let op ← castU8ToOpcode b
    let ins ← makeInstructions op [operand]
    pure (st.replaceInstruction pos ins)

/-- `enter_scope`. -/
def enterScope (st : CState) : CState :=
  { st with
    scopes := st.scopes ++ [defaultScope]
    scopeIndex := st.scopeIndex + 1
    symbolTable := SymbolTable.newEnclosed st.symbolTable }

/-- `leave_scope`: pops the scope and restores the outer symbol table
(`unwrap` on a missing outer table is a panic). -/
def leaveScope (st : CState) : CRes (List Nat × CState) :=
  let ins := st.currentInstruction
  let st := { st with scopes := st.scopes.dropLast, scopeIndex := st.scopeIndex - 1 }
  match st.symbolTable.outer with
  | some o => .ok (ins, { st with symbolTable := o })
  | none => .panic "called Option::unwrap on a None value"

/-- `load_symbol`. -/
def loadSymbol (st : CState) (sym : Symbol) : CRes CState :=
  match sym.scope with
  | .Global => st.emitD .OpGetGlobal [sym.index]
  | .Local => st.emitD .OpGetLocal [sym.index]
  | .Builtin => st.emitD .OpGetBuiltin [sym.index]
  | .Free => st.emitD .OpGetFree [sym.index]
  | .Function => st.emitD .OpCurrentClosure []

def loadSymbols (st : CState) : List Symbol → CRes CState
  | [] => .ok st
  | s :: rest => do
    let st ← st.loadSymbol s
    st.loadSymbols rest

/-- `bytecode()`. -/
def bytecode (st : CState) : Bytecode := ⟨st.currentInstruction, st.constants⟩

end CState

/-- `is_tail_recursive_call`: the body's last statement is an expression
statement calling the function's own (non-empty) name. -/
def isTailRecursiveCall (body : List Statement) (name : String) : Bool :=
  if name = "" then false
  else
    match body.getLast? with
    | some (.exprS (.callE (.ident id) _)) => id = name
    | _ => false

/-- `try_constant_fold_prefix`: `-` on an integer literal folds to a
negated constant; `!` on a boolean literal folds to the opposite boolean
opcode.  `some` means the fold handled the expression. -/
def tryFoldUnary (st : CState) (op : TokenKind) (operand : Expression) :
    Option (CRes CState) :=
  match op, operand with
  | .MINUS, .lit (.integer raw) => some (do
      let v ← i64Neg raw
      let (idx, st) := st.addConstant (.integer v)
      st.emitD .OpConst [idx])
  | .BANG, .lit (.boolean b) =>
      some (if b then st.emitD .OpFalse [] else st.emitD .OpTrue [])
  | _, _ => none

/-- `try_constant_fold_infix`: a binary operator applied to two integer
literals folds to an integer or boolean constant; division and modulo by a
zero literal are deliberately not folded. -/
def tryFoldBinary (st : CState) (op : TokenKind) (left right : Expression) :
    Option (CRes CState) :=
  match left, right with
  | .lit (.integer l), .lit (.integer r) =>
    let intFold (res : CRes Int) : Option (CRes CState) :=
      some (do
        let v ← res
        let (idx, st) := st.addConstant (.integer v)
        st.emitD .OpConst [idx])
    let boolFold (b : Bool) : Option (CRes CState) :=
      some (if b then st.emitD .OpTrue [] else st.emitD .OpFalse [])
    match op with
    | .PLUS => intFold (i64Add l r)
    | .MINUS => intFold (i64Sub l r)
    | .ASTERISK => intFold (i64Mul l r)
    | .SLASH => if r = 0 then none else intFold (i64Div l r)
    | .PERCENT => if r = 0 then none else intFold (i64Rem l r)
    | .GT => boolFold (decide (l > r))
    | .LT => boolFold (decide (l < r))
    | .GTE => boolFold (decide (l ≥ r))
    | .LTE => boolFold (decide (l ≤ r))
    | .EQ => boolFold (decide (l = r))
    | .NotEq => boolFold (decide (l ≠ r))
    | _ => none
  | _, _ => none

/-- The function-body epilogue from `compile_expr`'s FUNCTION arm (lines
282–294 of compiler.rs): if the last instruction is Pop then (a) when the
body ends in a self-call and the previous instruction is a Call, rewrite
that Call's opcode byte to TailCall, and (b) replace the Pop with
ReturnValue; finally emit Return unless the body now ends in
ReturnValue. -/
def finalizeFunctionBody (st : CState) (body : List Statement) (name : String) :
    CRes CState := do
  let st ←
    if st.lastInstructionIs .OpPop then do
      let st :=
        if isTailRecursiveCall body name then
          let prev := st.scope.previousInstruction
          if prev.opcode = .OpCall then
            st.setScope { st.scope with
              instructions :=
                st.scope.instructions.set prev.position Opcode.OpTailCall.toByte }
          else st
        else st
      st.replaceLastPopWithReturn
    else pure st
  if ¬ st.lastInstructionIs .OpReturnValue then st.emitD .OpReturn []
  else pure st

/-- `Compiler::PLACEHOLDER_ADDRESS`. -/
def placeholderAddress : Nat := 0

/-- The panic used when the recursion budget below runs out.  The budget
is an embedding artifact: the Rust functions recurse structurally over the
AST, and the Lean versions take an explicit depth budget so that they
compute by kernel reduction; every ground use passes a budget larger than
the AST, so this panic is never reached there. -/
def outOfFuel : String := "compiler recursion budget exhausted"

mutual

/-- `compile_expr` (recursion budget added; see `outOfFuel`). -/
def compileExpr : Nat → CState → Expression → CRes CState
  | 0, _, _ => .panic outOfFuel
  | fuel + 1, st, e =>
    match e with
    | .ident name =>
      match st.symbolTable.resolve name with
      | (some sym, tbl) => CState.loadSymbol { st with symbolTable := tbl } sym
      | (none, _) => .err ("Undefined variable '" ++ name ++ "'")
    | .lit l => compileLiteral fuel st l
    | .prefixE op operand =>
      match tryFoldUnary st op operand with
      | some folded => folded
      | none => do
        let st ← compileExpr fuel st operand
        match op with
        | .MINUS => st.emitD .OpMinus []
        | .BANG => st.emitD .OpBang []
        | _ => .err ("unexpected prefix op: " ++ op.text)
    | .infixE op left right =>
      match tryFoldBinary st op left right with
      | some folded => folded
      | none =>
        if op = .LT then do
          let st ← compileExpr fuel st right
          let st ← compileExpr fuel st left
          st.emitD .OpGreaterThan []
        else if op = .LTE then do
          let st ← compileExpr fuel st left
          let st ← compileExpr fuel st right
          let st ← st.emitD .OpGreaterThan []
          st.emitD .OpBang []
        else if op = .GTE then do
          let st ← compileExpr fuel st right
          let st ← compileExpr fuel st left
          let st ← st.emitD .OpGreaterThan []
          st.emitD .OpBang []
        else do
          let st ← compileExpr fuel st left
          let st ← compileExpr fuel st right
          match op with
          | .PLUS => st.emitD .OpAdd []
          | .MINUS => st.emitD .OpSub []
          | .ASTERISK => st.emitD .OpMul []
          | .SLASH => st.emitD .OpDiv []
          | .PERCENT => st.emitD .OpModulo []
          | .GT => st.emitD .OpGreaterThan []
          | .EQ => st.emitD .OpEqual []
          | .NotEq => st.emitD .OpNotEqual []
          | _ => .err ("unexpected infix op: " ++ op.text)
    | .ifE condition consequent alternate => do
      let st ← compileExpr fuel st condition
      let (jumpNotTruthy, st) ← st.emit .OpJumpNotTruthy [placeholderAddress]
      let st ← compileStmts fuel st consequent
      let st := if st.lastInstructionIs .OpPop then st.removeLastPop else st
      let (jumpPos, st) ← st.emit .OpJump [placeholderAddress]
      let afterConsequence := st.currentInstruction.length
      let st ← st.changeOperand jumpNotTruthy afterConsequence
      let st ←
        match alternate with
        | some alt => do
          let st ← compileStmts fuel st alt
          pure (if st.lastInstructionIs .OpPop then st.removeLastPop else st)
        | none => st.emitD .OpNull []
      let afterAlternative := st.currentInstruction.length
      st.changeOperand jumpPos afterAlternative
    | .whileE condition body => do
      let loopStart := st.currentInstruction.length
      let st ← compileExpr fuel st condition
      let (jumpNotTruthy, st) ← st.emit .OpJumpNotTruthy [placeholderAddress]
      let st ← compileStmts fuel st body
      let st ← st.emitD .OpJump [loopStart]
      let afterLoop := st.currentInstruction.length
      let st ← st.changeOperand jumpNotTruthy afterLoop
      st.emitD .OpNull []
    | .indexE object index => do
      let st ← compileExpr fuel st object
      let st ← compileExpr fuel st index
      st.emitD .OpIndex []
    | .funcE name params body => do
      let st := st.enterScope
      let st :=
        if name ≠ "" then
          { st with symbolTable := (st.symbolTable.defineFunctionName name).2 }
        else st
      let st := params.foldl
        (fun s p => { s with symbolTable := (s.symbolTable.define p).2 }) st
      let st ← compileStmts fuel st body
      let st ← finalizeFunctionBody st body name
      let numLocals := st.symbolTable.numDefinitions
      let freeSyms := st.symbolTable.freeSymbols
      let (instructions, st) ← st.leaveScope
      let st ← st.loadSymbols freeSyms
      let (constIdx, st) := st.addConstant
        (.compiledFunction ⟨instructions, numLocals, params.length⟩)
      st.emitD .OpClosure [constIdx, freeSyms.length]
    | .callE callee arguments => do
      let st ← compileExpr fuel st callee
      let st ← compileExprList fuel st arguments
      st.emitD .OpCall [arguments.length]

/-- The `Expression::LITERAL` arm of `compile_expr`. -/
def compileLiteral : Nat → CState → Literal → CRes CState
  | 0, _, _ => .panic outOfFuel
  | fuel + 1, st, l =>
    match l with
    | .integer i =>
      let (idx, st) := st.addConstant (.integer i)
      st.emitD .OpConst [idx]
    | .boolean b => if b then st.emitD .OpTrue [] else st.emitD .OpFalse []
    | .strL s =>
      let (idx, st) := st.addConstant (.str s)
      st.emitD .OpConst [idx]
    | .arrayL elements => do
      let st ← compileExprList fuel st elements
      st.emitD .OpArray [elements.length]
    | .hashL elements => do
      let st ← compileHashPairs fuel st elements
      st.emitD .OpHash [elements.length * 2]

def compileExprList : Nat → CState → List Expression → CRes CState
  | 0, _, _ => .panic outOfFuel
  | fuel + 1, st, es =>
    match es with
    | [] => .ok st
    | e :: rest => do
      let st ← compileExpr fuel st e
      compileExprList fuel st rest

def compileHashPairs : Nat → CState → List (Expression × Expression) → CRes CState
  | 0, _, _ => .panic outOfFuel
  | fuel + 1, st, prs =>
    match prs with
    | [] => .ok st
    | (k, v) :: rest => do
      let st ← compileExpr fuel st k
      let st ← compileExpr fuel st v
      compileHashPairs fuel st rest

/-- `compile_stmt`. -/
def compileStmt : Nat → CState → Statement → CRes CState
  | 0, _, _ => .panic outOfFuel
  | fuel + 1, st, stmt =>
    match stmt with
    | .letS identifier expr =>
      match identifier with
      | .IDENTIFIER name => do
        let st ← compileExpr fuel st expr
        let (symbol, tbl) := st.symbolTable.define name
        let st := { st with symbolTable := tbl }
        if symbol.scope = .Global then st.emitD .OpSetGlobal [symbol.index]
        else st.emitD .OpSetLocal [symbol.index]
      | _ => .err "Expected identifier"
    | .returnS argument => do
      let st ← compileExpr fuel st argument
      st.emitD .OpReturnValue []
    | .exprS e => do
      let st ← compileExpr fuel st e
      st.emitD .OpPop []

/-- `compile_block_statement` / the Program loop in `compile`. -/
def compileStmts : Nat → CState → List Statement → CRes CState
  | 0, _, _ => .panic outOfFuel
  | fuel + 1, st, stmts =>
    match stmts with
    | [] => .ok st
    | s :: rest => do
      let st ← compileStmt fuel st s
      compileStmts fuel st rest

end

/-- `Compiler::compile` (with the recursion budget of the embedding). -/
def compile (fuel : Nat) (st : CState) (node : Node) : CRes Bytecode := do
  let st ←
    match node with
    | .program body => compileStmts fuel st body
    | .statement s => compileStmt fuel st s
    | .expression e => compileExpr fuel st e
  pure st.bytecode

/-! ## Virtual machine (compiler/vm.rs, compiler/frame.rs) -/

def STACK_SIZE : Nat := 2048

def GLOBAL_SIZE : Nat := 65536

def MAX_FRAMES : Nat := 1024

/-- `Value` from vm.rs: the unboxed stack representation. -/
inductive Value where
  | integer (i : Int)
  | boolean (b : Bool)
  | vnull
  | object (o : Object)

instance : Inhabited Value := ⟨.vnull⟩

/-- `Value::from_object`. -/
def Value.fromObject : Object → Value
  | .integer i => .integer i
  | .boolean b => .boolean b
  | .null => .vnull
  | o => .object o

/-- `Value::into_rc_object`. -/
def Value.intoObject : Value → Object
  | .integer i => .integer i
  | .boolean b => .boolean b
  | .vnull => .null
  | .object o => o

/-- `Value::is_truthy`: false and null are falsy, all else truthy. -/
def Value.isTruthy : Value → Bool
  | .boolean b => b
  | .vnull => false
  | _ => true

/-- `Value::type_name`. -/
def Value.typeName : Value → String
  | .integer _ => "INTEGER"
  | .boolean _ => "BOOLEAN"
  | .vnull => "NULL"
  | .object o =>
    match o with
    | .str _ => "STRING"
    | .array _ => "ARRAY"
    | .hash _ => "HASH"
    | .closureObj _ _ => "CLOSURE"
    | .builtin _ => "BUILTIN"
    | _ => "OBJECT"

/-- `VMError` from vm.rs. -/
inductive VMErr where
  | stackOverflow
  | typeError (msg : String)
  | wrongArity (expected got : Nat)
  | notCallable (t : String)
  | indexError (msg : String)
deriving DecidableEq, Repr

/-- `Closure` from object/object.rs as carried by a frame. -/
structure ClosureData where
  func : CompiledFn
  free : List Object

instance : Inhabited ClosureData := ⟨⟨⟨[], 0, 0⟩, []⟩⟩

/-- `Frame` from frame.rs. -/
structure Frame where
  closure : ClosureData
  ip : Int
  basePointer : Nat

instance : Inhabited Frame := ⟨⟨default, -1, 0⟩⟩

/-- `Frame::new`: the instruction pointer starts before the first
instruction. -/
def Frame.new (closure : ClosureData) (basePointer : Nat) : Frame :=
  ⟨closure, -1, basePointer⟩

def Frame.instrs (f : Frame) : List Nat := f.closure.func.instructions

/-- The VM state (`VM` without its methods). -/
structure VMState where
  constants : List Value
  stack : List Value
  sp : Nat
  globals : List Value
  frames : List Frame
  frameIndex : Nat

instance : Inhabited VMState := ⟨⟨[], [], 0, [], [], 0⟩⟩

/-- `VM::new`: fixed-size stack, globals and frame arrays; frame 0 holds a
synthetic closure around the top-level instructions. -/
def vmNew (bytecode : Bytecode) : VMState :=
  let emptyFrame := Frame.new ⟨⟨[], 0, 0⟩, []⟩ 0
  let mainFrame := Frame.new ⟨⟨bytecode.instructions, 0, 0⟩, []⟩ 0
  { constants := bytecode.constants.map Value.fromObject
    stack := List.replicate STACK_SIZE .vnull
    sp := 0
    globals := List.replicate GLOBAL_SIZE .vnull
    frames := (List.replicate MAX_FRAMES emptyFrame).set 0 mainFrame
    frameIndex := 1 }

/-- `VM::new_with_global_store`. -/
def vmNewWithGlobalStore (bytecode : Bytecode) (globals : List Value) : VMState :=
  { vmNew bytecode with globals := globals }

/-- Result of a VM action: a value, a returned `VMError`, or a panic. -/
inductive VRes (α : Type) where
  | ok (a : α)
  | err (e : VMErr)
  | panic (msg : String)

instance : Monad VRes where
  pure a := .ok a
  bind r f := match r with
    | .ok a => f a
    | .err e => .err e
    | .panic m => .panic m

namespace VMState

/-- `self.frames[self.frame_index - 1]` — panics when the index underflows
or escapes the frame array. -/
def currentFrame (s : VMState) : VRes Frame :=
  if s.frameIndex = 0 then .panic "attempt to subtract with overflow"
  else
    match s.frames.get? (s.frameIndex - 1) with
    | some f => .ok f
    | none => .panic "frame index out of bounds"

/-- Rewrite the current frame in place (used for every `ip` update). -/
def updateFrame (s : VMState) (g : Frame → Frame) : VMState :=
  match s.frames.get? (s.frameIndex - 1) with
  | some f => { s with frames := s.frames.set (s.frameIndex - 1) (g f) }
  | none => s

/-- `push`: full stack is a recoverable StackOverflow error.  The stack
vector always has exactly `STACK_SIZE` slots, so the Rust write
`stack[sp] = v` is in bounds exactly when `sp < STACK_SIZE`. -/
def push (s : VMState) (v : Value) : VRes VMState :=
  if s.sp ≥ STACK_SIZE then .err .stackOverflow
  else .ok { s with stack := s.stack.set s.sp v, sp := s.sp + 1 }

/-- `pop`: reads `stack[sp - 1]`; an empty stack panics (usize
underflow). -/
def pop (s : VMState) : VRes (Value × VMState) :=
  if s.sp = 0 then .panic "attempt to subtract with overflow"
  else
    match s.stack.get? (s.sp - 1) with
    | some v => .ok (v, { s with sp := s.sp - 1 })
    | none => .panic "index out of bounds"

/-- `last_popped_stack_elm`. -/
def lastPopped (s : VMState) : Option Value := s.stack.get? s.sp

/-- `push_frame`: writes `frames[frame_index]` unguarded — when the frame
array is full this is an out-of-bounds index, i.e. a panic, not a
`VMError`. -/
def pushFrame (s : VMState) (f : Frame) : VRes VMState :=
  if s.frameIndex < MAX_FRAMES then
    .ok { s with
      frames := (s.frames.set s.frameIndex f),
      frameIndex := s.frameIndex + 1 }
  else
    .panic ("index out of bounds: the len is " ++ toString MAX_FRAMES ++
      " but the index is " ++ toString s.frameIndex)

/-- `pop_frame`: decrements the frame index and returns that frame. -/
def popFrame (s : VMState) : VRes (Frame × VMState) :=
  if s.frameIndex = 0 then .panic "attempt to subtract with overflow"
  else
    match s.frames.get? (s.frameIndex - 1) with
    | some f => .ok (f, { s with frameIndex := s.frameIndex - 1 })
    | none => .panic "frame index out of bounds"

end VMState

/-- Big-endian u16 read of `ins[i..i+2]` (`BigEndian::read_u16`); a short
slice panics. -/
def readU16 (ins : List Nat) (i : Nat) : VRes Nat :=
  match ins.get? i, ins.get? (i + 1) with
  | some a, some b => .ok (a * 256 + b)
  | _, _ => .panic "slice index out of bounds"

/-- u8 read of `ins[i]`; out of bounds panics. -/
def readU8 (ins : List Nat) (i : Nat) : VRes Nat :=
  match ins.get? i with
  | some a => .ok a
  | none => .panic "index out of bounds"

/-- `execute_binary_operation`: integer arithmetic (Rust semantics via the
checked i64 helpers), string concatenation under Add, all else a
TypeError. -/
def executeBinaryOperation (s : VMState) (opcode : Opcode) : VRes VMState := do
  let (right, s) ← s.pop
  let (left, s) ← s.pop
  match left, right with
  | .integer l, .integer r => do
    let result : CRes Int :=
      match opcode with
      | .OpAdd => i64Add l r
      | .OpSub => i64Sub l r
      | .OpMul => i64Mul l r
      | .OpDiv => i64Div l r
      | .OpModulo => i64Rem l r
      | _ => .err "unknown integer operator"
    match result with
    | .ok v => s.push (.integer v)
    | .err _ => .err (.typeError ("unknown integer operator: " ++ reprStr opcode))
    | .panic m => .panic m
  | .object lo, .object ro =>
    match lo, ro with
    | .str ls, .str rs =>
      if opcode = .OpAdd then s.push (.object (.str (ls ++ rs)))
      else .err (.typeError ("unsupported binary operation " ++ reprStr opcode ++
        " for " ++ (Value.object lo).typeName ++ " and " ++ (Value.object ro).typeName))
    | _, _ => .err (.typeError ("unsupported binary operation " ++ reprStr opcode ++
        " for " ++ (Value.object lo).typeName ++ " and " ++ (Value.object ro).typeName))
  | _, _ => .err (.typeError ("unsupported binary operation " ++ reprStr opcode ++
      " for " ++ left.typeName ++ " and " ++ right.typeName))

/-- `execute_comparison`. -/
def executeComparison (s : VMState) (opcode : Opcode) : VRes VMState := do
  let (right, s) ← s.pop
  let (left, s) ← s.pop
  match left, right with
  | .integer l, .integer r =>
    match opcode with
    | .OpEqual => s.push (.boolean (decide (l = r)))
    | .OpNotEqual => s.push (.boolean (decide (l ≠ r)))
    | .OpGreaterThan => s.push (.boolean (decide (l > r)))
    | _ => .err (.typeError ("unknown comparison operator: " ++ reprStr opcode))
  | .boolean l, .boolean r =>
    match opcode with
    | .OpEqual => s.push (.boolean (l = r))
    | .OpNotEqual => s.push (.boolean (l ≠ r))
    | _ => .err (.typeError ("unknown boolean comparison operator: " ++ reprStr opcode))
  | _, _ => .err (.typeError ("unsupported comparison for " ++ left.typeName ++
      " and " ++ right.typeName))

/-- `execute_minus_operation`. -/
def executeMinusOperation (s : VMState) : VRes VMState := do
  let (operand, s) ← s.pop
  match operand with
  | .integer l =>
    match i64Neg l with
    | .ok v => s.push (.integer v)
    | .err _ => .panic "unreachable"
    | .panic m => .panic m
  | _ => .err (.typeError ("unsupported negation for " ++ operand.typeName))

/-- `execute_bang_operation`: boolean negation; every non-boolean operand
falls through to `false`. -/
def executeBangOperation (s : VMState) : VRes VMState := do
  let (operand, s) ← s.pop
  match operand with
  | .boolean l => s.push (.boolean (!l))
  | _ => s.push (.boolean false)

/-- `build_array`: collect `stack[start..end]`. -/
def buildArray (s : VMState) (start stop : Nat) : VRes (List Object) :=
  if stop > STACK_SIZE then .panic "index out of bounds"
  else .ok (((s.stack.drop start).take (stop - start)).map Value.intoObject)

/-- `HashMap::insert`. -/
def hashInsert (pairs : List (HashKey × Object)) (k : HashKey) (v : Object) :
    List (HashKey × Object) :=
  pairs.eraseP (fun p => p.1 = k) ++ [(k, v)]

/-- `build_hash`: consume key/value pairs; a non-hashable key hits the
`expect`, i.e. a panic with the message below, not a `VMError`. -/
def buildHash (vals : List Value) (acc : List (HashKey × Object)) :
    VRes (List (HashKey × Object)) :=
  match vals with
  | [] => .ok acc
  | k :: v :: rest =>
    match HashKey.tryFromObject k.intoObject with
    | some hk => buildHash rest (hashInsert acc hk v.intoObject)
    | none => .panic "compiler must only emit hashable keys in hash literals"
  | [_] => .ok acc

/-- `execute_array_index`: out-of-range or negative indices yield Null. -/
def executeArrayIndex (s : VMState) (arr : List Object) (index : Int) :
    VRes VMState :=
  if 0 ≤ index ∧ index < (arr.length : Int) then
    match arr.get? index.toNat with
    | some o => s.push (Value.fromObject o)
    | none => .panic "index out of bounds"
  else s.push .vnull

/-- `execute_hash_index`: missing keys yield Null, unhashable keys an
IndexError. -/
def executeHashIndex (s : VMState) (pairs : List (HashKey × Object))
    (index : Object) : VRes VMState :=
  match HashKey.tryFromObject index with
  | some hk =>
    match (pairs.find? (fun p => p.1 = hk)).map (·.2) with
    | some el => s.push (Value.fromObject el)
    | none => s.push .vnull
  | none => .err (.indexError "index operator not supported for this key")

/-- `execute_index_operation`. -/
def executeIndexOperation (s : VMState) (left index : Value) : VRes VMState :=
  match left, index with
  | .object o, .integer i =>
    match o with
    | .array arr => executeArrayIndex s arr i
    | .hash pairs => executeHashIndex s pairs index.intoObject
    | _ => .err (.indexError ("index operator not supported for " ++ left.typeName))
  | .object o, _ =>
    match o with
    | .hash pairs => executeHashIndex s pairs index.intoObject
    | _ => .err (.indexError ("index operator not supported for " ++ left.typeName))
  | _, _ => .err (.indexError ("index operator not supported for " ++ left.typeName))

/-- Modelled from the spec: the host builtin implementations (crate
`object::builtins`, not present in the sources); §6/§8 of the spec give
their names and observable behaviour (`len([1,2,3])` → Integer(3)). -/
def builtinApply (idx : Nat) (args : List Object) : Object :=
  match idx, args with
  | 0, [.array els] => .integer els.length
  | 0, [.str s] => .integer s.length
  | 1, [.array els] => (els.head?.getD .null)
  | 2, [.array els] => (els.getLast?.getD .null)
  | 3, [.array els] => .array els.tail
  | 4, [.array els, v] => .array (els ++ [v])
  | _, _ => .null

/-- `call_closure`: arity mismatch is a WrongArity error; otherwise push a
frame whose base points at the first argument and reserve local slots. -/
def callClosure (s : VMState) (cl : ClosureData) (numArgs : Nat) :
    VRes VMState :=
  if cl.func.numParameters ≠ numArgs then
    .err (.wrongArity cl.func.numParameters numArgs)
  else
    let frame := Frame.new cl (s.sp - numArgs)
    let s := { s with sp := frame.basePointer + cl.func.numLocals }
    s.pushFrame frame

/-- `call_builtin`. -/
def callBuiltin (s : VMState) (idx : Nat) (numArgs : Nat) : VRes VMState := do
  if s.sp < numArgs + 1 then .panic "attempt to subtract with overflow"
  else if s.sp > STACK_SIZE then .panic "index out of bounds"
  else
    let args := ((s.stack.drop (s.sp - numArgs)).take numArgs).map Value.intoObject
    let result := builtinApply idx args
    let s := { s with sp := s.sp - numArgs - 1 }
    s.push (Value.fromObject result)

/-- `execute_call`: the callee sits below the arguments. -/
def executeCall (s : VMState) (numArgs : Nat) : VRes VMState :=
  if s.sp < numArgs + 1 then .panic "attempt to subtract with overflow"
  else
    match s.stack.get? (s.sp - 1 - numArgs) with
    | none => .panic "index out of bounds"
    | some callee =>
      match callee with
      | .object (.closureObj f fr) => callClosure s ⟨f, fr⟩ numArgs
      | .object (.builtin idx) => callBuiltin s idx numArgs
      | other => .err (.notCallable other.typeName)

/-- `push_closure`: wrap the CompiledFunction constant with the captured
frees taken from the stack top. -/
def pushClosure (s : VMState) (constIndex numFree : Nat) : VRes VMState :=
  match s.constants.get? constIndex with
  | none => .panic "index out of bounds"
  | some constant =>
    match constant with
    | .object (.compiledFunction fn) =>
      if numFree > s.sp then .panic "attempt to subtract with overflow"
      else if s.sp > STACK_SIZE then .panic "index out of bounds"
      else
        let free := ((s.stack.drop (s.sp - numFree)).take numFree).map
          Value.intoObject
        let s := { s with sp := s.sp - numFree }
        s.push (.object (.closureObj fn free))
    | other => .err (.typeError ("not a function: " ++ other.typeName))

/-- The `OpConst` arm of the dispatch loop. -/
def stepConst (s : VMState) (ip : Nat) (ins : List Nat) : VRes VMState := do
  let constIndex ← readU16 ins (ip + 1)
  let s := s.updateFrame (fun fr => { fr with ip := fr.ip + 2 })
  match s.constants.get? constIndex with
  | none => .panic "index out of bounds"
  | some val => s.push val

/-- The `OpJump` arm: `ip ← target - 1`. -/
def stepJump (s : VMState) (ip : Nat) (ins : List Nat) : VRes VMState := do
  let pos ← readU16 ins (ip + 1)
  pure (s.updateFrame (fun fr => { fr with ip := (pos : Int) - 1 }))

/-- The `OpJumpNotTruthy` arm. -/
def stepJumpNotTruthy (s : VMState) (ip : Nat) (ins : List Nat) :
    VRes VMState := do
  let pos ← readU16 ins (ip + 1)
  let s := s.updateFrame (fun fr => { fr with ip := fr.ip + 2 })
  let (condition, s) ← s.pop
  if ¬ condition.isTruthy then
    pure (s.updateFrame (fun fr => { fr with ip := (pos : Int) - 1 }))
  else pure s

/-- The `OpGetGlobal` arm. -/
def stepGetGlobal (s : VMState) (ip : Nat) (ins : List Nat) : VRes VMState := do
  let globalIndex ← readU16 ins (ip + 1)
  let s := s.updateFrame (fun fr => { fr with ip := fr.ip + 2 })
  match s.globals.get? globalIndex with
  | none => .panic "index out of bounds"
  | some val => s.push val

/-- The `OpSetGlobal` arm. -/
def stepSetGlobal (s : VMState) (ip : Nat) (ins : List Nat) : VRes VMState := do
  let globalIndex ← readU16 ins (ip + 1)
  let s := s.updateFrame (fun fr => { fr with ip := fr.ip + 2 })
  let (v, s) ← s.pop
  if globalIndex < GLOBAL_SIZE then
    pure { s with globals := s.globals.set globalIndex v }
  else .panic "index out of bounds"

/-- The `OpArray` arm. -/
def stepArray (s : VMState) (ip : Nat) (ins : List Nat) : VRes VMState := do
  let count ← readU16 ins (ip + 1)
  let s := s.updateFrame (fun fr => { fr with ip := fr.ip + 2 })
  if count > s.sp then .panic "attempt to subtract with overflow"
  else do
    let elements ← buildArray s (s.sp - count) s.sp
    let s := { s with sp := s.sp - count }
    s.push (.object (.array elements))

/-- The `OpHash` arm. -/
def stepHash (s : VMState) (ip : Nat) (ins : List Nat) : VRes VMState := do
  let count ← readU16 ins (ip + 1)
  let s := s.updateFrame (fun fr => { fr with ip := fr.ip + 2 })
  if count > s.sp then .panic "attempt to subtract with overflow"
  else if s.sp > STACK_SIZE then .panic "index out of bounds"
  else do
    let vals := (s.stack.drop (s.sp - count)).take count
    let elements ← buildHash vals []
    let s := { s with sp := s.sp - count }
    s.push (.object (.hash elements))

/-- The `OpIndex` arm. -/
def stepIndex (s : VMState) : VRes VMState := do
  let (index, s) ← s.pop
  let (left, s) ← s.pop
  executeIndexOperation s left index

/-- The `OpReturnValue` arm. -/
def stepReturnValue (s : VMState) : VRes VMState := do
  let (returnValue, s) ← s.pop
  let (frame, s) ← s.popFrame
  if frame.basePointer = 0 then .panic "attempt to subtract with overflow"
  else do
    let s := { s with sp := frame.basePointer - 1 }
    s.push returnValue

/-- The `OpReturn` arm. -/
def stepReturn (s : VMState) : VRes VMState := do
  let (frame, s) ← s.popFrame
  if frame.basePointer = 0 then .panic "attempt to subtract with overflow"
  else do
    let s := { s with sp := frame.basePointer - 1 }
    s.push .vnull

/-- The `OpCall` arm. -/
def stepCall (s : VMState) (ip : Nat) (ins : List Nat) : VRes VMState := do
  let numArgs ← readU8 ins (ip + 1)
  let s := s.updateFrame (fun fr => { fr with ip := fr.ip + 1 })
  executeCall s numArgs

/-- The `OpTailCall` arm: copy the arguments down over the current frame's
base, reset sp and restart the same function body. -/
def stepTailCall (s : VMState) (ip : Nat) (ins : List Nat) : VRes VMState := do
  let numArgs ← readU8 ins (ip + 1)
  let s := s.updateFrame (fun fr => { fr with ip := fr.ip + 1 })
  let f ← s.currentFrame
  let base := f.basePointer
  let numLocals := f.closure.func.numLocals
  if s.sp < numArgs then .panic "attempt to subtract with overflow"
  else if base + numArgs > STACK_SIZE ∨ s.sp > STACK_SIZE then
    .panic "index out of bounds"
  else
    let argVals := (s.stack.drop (s.sp - numArgs)).take numArgs
    let s := { s with
      stack := (argVals.enum.foldl
        (fun st (p : Nat × Value) => st.set (base + p.1) p.2) s.stack),
      sp := base + numLocals }
    pure (s.updateFrame (fun fr => { fr with ip := -1 }))

/-- The `OpSetLocal` arm. -/
def stepSetLocal (s : VMState) (ip : Nat) (ins : List Nat) : VRes VMState := do
  let localIndex ← readU8 ins (ip + 1)
  let s := s.updateFrame (fun fr => { fr with ip := fr.ip + 1 })
  let f ← s.currentFrame
  let (v, s) ← s.pop
  if f.basePointer + localIndex < STACK_SIZE then
    pure { s with stack := s.stack.set (f.basePointer + localIndex) v }
  else .panic "index out of bounds"

/-- The `OpGetLocal` arm. -/
def stepGetLocal (s : VMState) (ip : Nat) (ins : List Nat) : VRes VMState := do
  let localIndex ← readU8 ins (ip + 1)
  let s := s.updateFrame (fun fr => { fr with ip := fr.ip + 1 })
  let f ← s.currentFrame
  match s.stack.get? (f.basePointer + localIndex) with
  | none => .panic "index out of bounds"
  | some val => s.push val

/-- The `OpGetBuiltin` arm (`BuiltIns.get(idx).unwrap()`). -/
def stepGetBuiltin (s : VMState) (ip : Nat) (ins : List Nat) : VRes VMState := do
  let builtIndex ← readU8 ins (ip + 1)
  let s := s.updateFrame (fun fr => { fr with ip := fr.ip + 1 })
  if builtIndex < builtinNames.length then
    s.push (.object (.builtin builtIndex))
  else .panic "called Option::unwrap on a None value"

/-- The `OpClosure` arm. -/
def stepClosure (s : VMState) (ip : Nat) (ins : List Nat) : VRes VMState := do
  let constIndex ← readU16 ins (ip + 1)
  let numFree ← readU8 ins (ip + 3)
  let s := s.updateFrame (fun fr => { fr with ip := fr.ip + 3 })
  pushClosure s constIndex numFree

/-- The `OpGetFree` arm. -/
def stepGetFree (s : VMState) (ip : Nat) (ins : List Nat) : VRes VMState := do
  let freeIndex ← readU8 ins (ip + 1)
  let s := s.updateFrame (fun fr => { fr with ip := fr.ip + 1 })
  let f ← s.currentFrame
  match f.closure.free.get? freeIndex with
  | none => .panic "index out of bounds"
  | some o => s.push (Value.fromObject o)

/-- The `OpCurrentClosure` arm. -/
def stepCurrentClosure (s : VMState) : VRes VMState := do
  let f ← s.currentFrame
  s.push (.object (.closureObj f.closure.func f.closure.free))

/-- One iteration of the `run` dispatch loop: advance `ip`, decode the
opcode at the new position, execute its arm.  Assumes the loop guard
(`ip < len - 1`) already held. -/
def step (s : VMState) : VRes VMState := do
  let f ← s.currentFrame
  let ipInt := f.ip + 1
  if ipInt < 0 then .panic "negative instruction pointer"
  else
  let s := s.updateFrame (fun fr => { fr with ip := ipInt })
  let ip := ipInt.toNat
  let ins := f.instrs
  let opByte ← readU8 ins ip
  match Opcode.ofByte opByte with
  | none => .panic ("Invalid opcode byte: " ++ toString opByte)
  | some opcode =>
    match opcode with
    | .OpConst => stepConst s ip ins
    | .OpAdd => executeBinaryOperation s .OpAdd
    | .OpSub => executeBinaryOperation s .OpSub
    | .OpMul => executeBinaryOperation s .OpMul
    | .OpDiv => executeBinaryOperation s .OpDiv
    | .OpModulo => executeBinaryOperation s .OpModulo
    | .OpPop => do
      let (_, s) ← s.pop
      pure s
    | .OpTrue => s.push (.boolean true)
    | .OpFalse => s.push (.boolean false)
    | .OpEqual => executeComparison s .OpEqual
    | .OpNotEqual => executeComparison s .OpNotEqual
    | .OpGreaterThan => executeComparison s .OpGreaterThan
    | .OpMinus => executeMinusOperation s
    | .OpBang => executeBangOperation s
    | .OpJump => stepJump s ip ins
    | .OpJumpNotTruthy => stepJumpNotTruthy s ip ins
    | .OpNull => s.push .vnull
    | .OpGetGlobal => stepGetGlobal s ip ins
    | .OpSetGlobal => stepSetGlobal s ip ins
    | .OpArray => stepArray s ip ins
    | .OpHash => stepHash s ip ins
    | .OpIndex => stepIndex s
    | .OpReturnValue => stepReturnValue s
    | .OpReturn => stepReturn s
    | .OpCall => stepCall s ip ins
    | .OpTailCall => stepTailCall s ip ins
    | .OpSetLocal => stepSetLocal s ip ins
    | .OpGetLocal => stepGetLocal s ip ins
    | .OpGetBuiltin => stepGetBuiltin s ip ins
    | .OpClosure => stepClosure s ip ins
    | .OpGetFree => stepGetFree s ip ins
    | .OpCurrentClosure => stepCurrentClosure s

/-- Outcome of running the VM with bounded fuel. -/
inductive Outcome where
  | timeout
  | halt (s : VMState)
  | vmError (e : VMErr)
  | panicOut (msg : String)

/-- `VM::run` with fuel: the loop runs while the current frame's `ip` is
before its last instruction, returning `Ok(())` (here: `halt` with the
final state) when the guard fails. -/
def runFuel : Nat → VMState → Outcome
  | 0, _ => .timeout
  | n + 1, s =>
    match s.currentFrame with
    | .err e => .vmError e
    | .panic m => .panicOut m
    | .ok f =>
      if f.ip < (f.instrs.length : Int) - 1 then
        match step s with
        | .ok s' => runFuel n s'
        | .err e => .vmError e
        | .panic m => .panicOut m
      else .halt s

/-- `n` successful loop iterations from `s` (none of them halting,
erroring or panicking). -/
def stepN : Nat → VMState → Option VMState
  | 0, s => some s
  | n + 1, s =>
    match s.currentFrame with
    | .ok f =>
      if f.ip < (f.instrs.length : Int) - 1 then
        match step s with
        | .ok s' => stepN n s'
        | _ => none
      else none
    | _ => none

/-! ## Helper lemmas: result monads and the fuelled run -/

@[simp] theorem CRes.bind_ok {α β : Type} (a : α) (f : α → CRes β) :
    (CRes.ok a >>= f) = f a := rfl

@[simp] theorem CRes.bind_err {α β : Type} (e : String) (f : α → CRes β) :
    ((CRes.err e : CRes α) >>= f) = .err e := rfl

@[simp] theorem CRes.bind_panic {α β : Type} (m : String) (f : α → CRes β) :
    ((CRes.panic m : CRes α) >>= f) = .panic m := rfl

@[simp] theorem CRes.map_ok {α β : Type} (g : α → β) (a : α) :
    CRes.map g (CRes.ok a) = .ok (g a) := rfl

@[simp] theorem CRes.pure_def {α : Type} (a : α) : (pure a : CRes α) = .ok a := rfl

@[simp] theorem VRes.bindOk {α β : Type} (a : α) (f : α → VRes β) :
    (VRes.ok a >>= f) = f a := rfl

@[simp] theorem VRes.bindErr {α β : Type} (e : VMErr) (f : α → VRes β) :
    ((VRes.err e : VRes α) >>= f) = .err e := rfl

@[simp] theorem VRes.bindPanic {α β : Type} (m : String) (f : α → VRes β) :
    ((VRes.panic m : VRes α) >>= f) = .panic m := rfl

@[simp] theorem VRes.pureDef {α : Type} (a : α) : (pure a : VRes α) = .ok a := rfl

theorem runFuel_zero (s : VMState) : runFuel 0 s = .timeout := rfl

theorem stepN_zero (s : VMState) : stepN 0 s = some s := rfl

/-- Unfolding `stepN` one iteration when a step is available. -/
theorem stepN_succ_of_step {s s₁ : VMState} {f : Frame}
    (hcf : s.currentFrame = .ok f)
    (hg : f.ip < (f.instrs.length : Int) - 1)
    (hs : step s = .ok s₁) (n : Nat) :
    stepN (n + 1) s = stepN n s₁ := by
  simp only [stepN, hcf, hs]
  rw [if_pos hg]

/-- The single-iteration unfolding of `runFuel` when a step is taken. -/
theorem runFuel_succ_of_step {s s₁ : VMState} {f : Frame}
    (hcf : s.currentFrame = .ok f)
    (hg : f.ip < (f.instrs.length : Int) - 1)
    (hs : step s = .ok s₁) (n : Nat) :
    runFuel (n + 1) s = runFuel n s₁ := by
  simp only [runFuel, hcf, hs]
  rw [if_pos hg]

/-- `runFuel` consumes the fuel of a completed `stepN` prefix. -/
theorem runFuel_shift {a : Nat} {s s' : VMState} (h : stepN a s = some s') :
    ∀ n, runFuel (n + a) s = runFuel n s' := by
  induction a generalizing s with
  | zero =>
    simp only [stepN_zero, Option.some.injEq] at h
    subst h
    intro n
    rfl
  | succ a ih =>
    intro n
    simp only [stepN] at h
    cases hcf : s.currentFrame with
    | ok f =>
      simp only [hcf] at h
      by_cases hg : f.ip < (f.instrs.length : Int) - 1
      · rw [if_pos hg] at h
        cases hs : step s with
        | ok s₁ =>
          simp only [hs] at h
          have hn : n + (a + 1) = (n + a) + 1 := by omega
          rw [hn, runFuel_succ_of_step hcf hg hs (n + a)]
          exact ih h n
        | err e => simp only [hs] at h; cases h
        | panic m => simp only [hs] at h; cases h
      · rw [if_neg hg] at h; cases h
    | err e => simp only [hcf] at h; cases h
    | panic m => simp only [hcf] at h; cases h

/-- Fuel that runs out inside a completed `stepN` prefix times out. -/
theorem runFuel_timeout_of_le {a : Nat} {s s' : VMState}
    (h : stepN a s = some s') : ∀ n, n ≤ a → runFuel n s = .timeout := by
  induction a generalizing s with
  | zero =>
    intro n hn
    have hn0 : n = 0 := by omega
    subst hn0
    rfl
  | succ a ih =>
    intro n hn
    simp only [stepN] at h
    cases hcf : s.currentFrame with
    | ok f =>
      simp only [hcf] at h
      by_cases hg : f.ip < (f.instrs.length : Int) - 1
      · rw [if_pos hg] at h
        cases hs : step s with
        | ok s₁ =>
          simp only [hs] at h
          match n with
          | 0 => rfl
          | m + 1 =>
            rw [runFuel_succ_of_step hcf hg hs m]
            exact ih h m (by omega)
        | err e => simp only [hs] at h; cases h
        | panic m => simp only [hs] at h; cases h
      · rw [if_neg hg] at h; cases h
    | err e => simp only [hcf] at h; cases h
    | panic m => simp only [hcf] at h; cases h

/-- A state that steps back to itself never halts, errors or panics: the
run times out for every fuel. -/
theorem runFuel_timeout_of_cycle {m : Nat} {s : VMState} (hm : 0 < m)
    (hcyc : stepN m s = some s) : ∀ n, runFuel n s = .timeout := by
  intro n
  induction n using Nat.strong_induction_on with
  | _ n ih =>
    by_cases hn : n ≤ m
    · exact runFuel_timeout_of_le hcyc n hn
    · have hsplit : n = (n - m) + m := by omega
      rw [hsplit, runFuel_shift hcyc (n - m)]
      exact ih (n - m) (by omega)

theorem replicate_append_cons_self {α : Type} (n : Nat) (a : α) (l : List α) :
    List.replicate n a ++ a :: l = a :: (List.replicate n a ++ l) := by
  induction n with
  | zero => rfl
  | succ n ih => simp only [List.replicate_succ, List.cons_append, ih]

/-- `stepN` splits over addition. -/
theorem stepN_append {a : Nat} {s s' : VMState} (h : stepN a s = some s') :
    ∀ b, stepN (a + b) s = stepN b s' := by
  induction a generalizing s with
  | zero =>
    simp only [stepN_zero, Option.some.injEq] at h
    subst h
    intro b
    rw [Nat.zero_add]
  | succ a ih =>
    intro b
    simp only [stepN] at h
    cases hcf : s.currentFrame with
    | ok f =>
      simp only [hcf] at h
      by_cases hg : f.ip < (f.instrs.length : Int) - 1
      · rw [if_pos hg] at h
        cases hs : step s with
        | ok s₁ =>
          simp only [hs] at h
          rw [show a + 1 + b = (a + b) + 1 from by omega,
            stepN_succ_of_step hcf hg hs (a + b)]
          exact ih h b
        | err e => simp only [hs] at h; cases h
        | panic m => simp only [hs] at h; cases h
      · rw [if_neg hg] at h; cases h
    | err e => simp only [hcf] at h; cases h
    | panic m => simp only [hcf] at h; cases h

/-- One fuelled iteration that panics inside `step`. -/
theorem runFuel_panic_of_step {s : VMState} {f : Frame} {m : String}
    (hcf : s.currentFrame = .ok f)
    (hg : f.ip < (f.instrs.length : Int) - 1)
    (hs : step s = .panic m) (n : Nat) :
    runFuel (n + 1) s = .panicOut m := by
  simp only [runFuel, hcf, hs]
  rw [if_pos hg]

/-- One-statement unfolding of `compileStmts`. -/
theorem compileStmts_cons (fuel : Nat) (st : CState) (s : Statement)
    (rest : List Statement) :
    compileStmts (fuel + 1) st (s :: rest)
      = (compileStmt fuel st s >>= fun st => compileStmts fuel st rest) := rfl

theorem compileStmts_nil (fuel : Nat) (st : CState) :
    compileStmts (fuel + 1) st [] = .ok st := rfl

theorem compile_program (fuel : Nat) (st : CState) (body : List Statement) :
    compile fuel st (.program body)
      = (compileStmts fuel st body >>= fun st => pure st.bytecode) := rfl

/-! ## Ground artifacts shared by the claims -/

/-- The builtin-populated global symbol table as a literal. -/
def bTable : SymbolTable :=
  ⟨[("puts", ⟨"puts", .Builtin, 5⟩), ("push", ⟨"push", .Builtin, 4⟩),
    ("rest", ⟨"rest", .Builtin, 3⟩), ("last", ⟨"last", .Builtin, 2⟩),
    ("first", ⟨"first", .Builtin, 1⟩), ("len", ⟨"len", .Builtin, 0⟩)],
   [], 0, none⟩

/-- `Compiler::new()` as a literal state. -/
def st0L : CState := ⟨[], bTable, [⟨[], ⟨.OpNull, 0⟩, ⟨.OpNull, 0⟩⟩], 0⟩

theorem compilerNew_lit : compilerNew = st0L := by rfl

/-- The empty frame used to fill the frame array. -/
def emptyFrameV : Frame := Frame.new ⟨⟨[], 0, 0⟩, []⟩ 0

/-! ## C1: `let x = 0; while (x < 5) { let x = x + 1; }; x` -/

def stmt1C1 : Statement := .letS (.IDENTIFIER "x") (.lit (.integer 0))

def whileStmtC1 : Statement :=
  .exprS (.whileE (.infixE .LT (.ident "x") (.lit (.integer 5)))
    [.letS (.IDENTIFIER "x") (.infixE .PLUS (.ident "x") (.lit (.integer 1)))])

def stmt3C1 : Statement := .exprS (.ident "x")

/-- The AST of `let x = 0; while (x < 5) { let x = x + 1; }; x` as the
parser delivers it. -/
def astC1 : List Statement := [stmt1C1, whileStmtC1, stmt3C1]

def stC1a : CState :=
  ⟨[.integer 0],
   ⟨[("x", ⟨"x", .Global, 0⟩)] ++ bTable.symbols, [], 1, none⟩,
   [⟨[0, 0, 0, 17, 0, 0], ⟨.OpSetGlobal, 3⟩, ⟨.OpConst, 0⟩⟩], 0⟩

def stC1b : CState :=
  ⟨[.integer 0, .integer 5, .integer 1],
   ⟨[("x", ⟨"x", .Global, 1⟩), ("x", ⟨"x", .Global, 0⟩)] ++ bTable.symbols,
    [], 2, none⟩,
   [⟨[0, 0, 0, 17, 0, 0, 0, 0, 1, 16, 0, 0, 10, 13, 0, 29, 16, 0, 0, 0, 0, 2,
      1, 17, 0, 1, 14, 0, 6, 15, 2], ⟨.OpPop, 30⟩, ⟨.OpNull, 29⟩⟩], 0⟩

def stC1c : CState :=
  ⟨[.integer 0, .integer 5, .integer 1],
   ⟨[("x", ⟨"x", .Global, 1⟩), ("x", ⟨"x", .Global, 0⟩)] ++ bTable.symbols,
    [], 2, none⟩,
   [⟨[0, 0, 0, 17, 0, 0, 0, 0, 1, 16, 0, 0, 10, 13, 0, 29, 16, 0, 0, 0, 0, 2,
      1, 17, 0, 1, 14, 0, 6, 15, 2, 16, 0, 1, 2],
     ⟨.OpPop, 34⟩, ⟨.OpGetGlobal, 31⟩⟩], 0⟩

/-- The bytecode the compiler produces for `astC1`.  The loop condition
reads global slot 0 (`GetGlobal 0` at offset 9) while the rebinding `let`
in the body writes the freshly allocated slot 1 (`SetGlobal 1` at offset
23). -/
def bcC1L : Bytecode :=
  ⟨[0, 0, 0, 17, 0, 0, 0, 0, 1, 16, 0, 0, 10, 13, 0, 29, 16, 0, 0, 0, 0, 2,
    1, 17, 0, 1, 14, 0, 6, 15, 2, 16, 0, 1, 2],
   [.integer 0, .integer 5, .integer 1]⟩

theorem c1_stage1 : compileStmt 39 st0L stmt1C1 = .ok stC1a := by rfl

theorem c1_stage2 : compileStmt 38 stC1a whileStmtC1 = .ok stC1b := by rfl

theorem c1_stage3 : compileStmt 37 stC1b stmt3C1 = .ok stC1c := by rfl

theorem c1_stmts : compileStmts 40 st0L astC1 = .ok stC1c := by
  simp only [astC1]
  rw [compileStmts_cons 39 st0L stmt1C1 [whileStmtC1, stmt3C1], c1_stage1]
  simp only [CRes.bind_ok]
  rw [compileStmts_cons 38 stC1a whileStmtC1 [stmt3C1], c1_stage2]
  simp only [CRes.bind_ok]
  rw [compileStmts_cons 37 stC1b stmt3C1 [], c1_stage3]
  simp only [CRes.bind_ok]
  rw [compileStmts_nil 36 stC1c]

theorem c1_compile : compile 40 compilerNew (.program astC1) = .ok bcC1L := by
  rw [compilerNew_lit, compile_program, c1_stmts]
  simp only [CRes.bind_ok, CRes.pure_def]
  rfl

/-- The closure wrapping the top-level instructions of `bcC1L`. -/
def mainClosureC1 : ClosureData := ⟨⟨bcC1L.instructions, 0, 0⟩, []⟩

/-- The VM state at the start of the second loop iteration: the condition
is about to read global 0, which still holds 0, while global 1 holds the
value the body keeps rewriting. -/
def sLoopC1 : VMState :=
  { constants := [.integer 0, .integer 5, .integer 1]
    stack := .integer 1 :: .integer 1 :: List.replicate 2046 .vnull
    sp := 0
    globals := .integer 0 :: .integer 1 :: List.replicate 65534 .vnull
    frames := ⟨mainClosureC1, 5, 0⟩ :: List.replicate 1023 emptyFrameV
    frameIndex := 1 }

theorem c1_prefix : stepN 11 (vmNew bcC1L) = some sLoopC1 := by rfl

theorem c1_cycle : stepN 9 sLoopC1 = some sLoopC1 := by rfl

/-! ## C9: `let f = fn() { f() + 0 }; f();` -/

def stmt1C9 : Statement :=
  .letS (.IDENTIFIER "f")
    (.funcE "f" []
      [.exprS (.infixE .PLUS (.callE (.ident "f") []) (.lit (.integer 0)))])

def stmt2C9 : Statement := .exprS (.callE (.ident "f") [])

def astC9 : List Statement := [stmt1C9, stmt2C9]

def fnC9 : CompiledFn := ⟨[29, 21, 0, 0, 0, 0, 1, 22], 0, 0⟩

def stC9a : CState :=
  ⟨[.integer 0, .compiledFunction fnC9],
   ⟨[("f", ⟨"f", .Global, 0⟩)] ++ bTable.symbols, [], 1, none⟩,
   [⟨[27, 0, 1, 0, 17, 0, 0], ⟨.OpSetGlobal, 4⟩, ⟨.OpClosure, 0⟩⟩], 0⟩

def stC9b : CState :=
  ⟨[.integer 0, .compiledFunction fnC9],
   ⟨[("f", ⟨"f", .Global, 0⟩)] ++ bTable.symbols, [], 1, none⟩,
   [⟨[27, 0, 1, 0, 17, 0, 0, 16, 0, 0, 21, 0, 2], ⟨.OpPop, 12⟩, ⟨.OpCall, 10⟩⟩],
   0⟩

def bcC9L : Bytecode :=
  ⟨[27, 0, 1, 0, 17, 0, 0, 16, 0, 0, 21, 0, 2],
   [.integer 0, .compiledFunction fnC9]⟩

theorem c9_stage1 : compileStmt 39 st0L stmt1C9 = .ok stC9a := by rfl

theorem c9_stage2 : compileStmt 38 stC9a stmt2C9 = .ok stC9b := by rfl

theorem c9_stmts : compileStmts 40 st0L astC9 = .ok stC9b := by
  simp only [astC9]
  rw [compileStmts_cons 39 st0L stmt1C9 [stmt2C9], c9_stage1]
  simp only [CRes.bind_ok]
  rw [compileStmts_cons 38 stC9a stmt2C9 [], c9_stage2]
  simp only [CRes.bind_ok]
  rw [compileStmts_nil 37 stC9b]

theorem c9_compile : compile 40 compilerNew (.program astC9) = .ok bcC9L := by
  rw [compilerNew_lit, compile_program, c9_stmts]
  simp only [CRes.bind_ok, CRes.pure_def]
  rfl

/-- The closure value the program keeps pushing. -/
def closVC9 : Value := .object (.closureObj fnC9 [])

def clDC9 : ClosureData := ⟨fnC9, []⟩

def mainClosureC9 : ClosureData := ⟨⟨bcC9L.instructions, 0, 0⟩, []⟩

/-- The VM state right after the outer `f()` call pushed the first body
frame (4 dispatch steps). -/
def c9Base : VMState :=
  { constants := [.integer 0, .object (.compiledFunction fnC9)]
    stack := closVC9 :: List.replicate 2047 .vnull
    sp := 1
    globals := closVC9 :: List.replicate 65535 .vnull
    frames := ⟨mainClosureC9, 11, 0⟩ :: ⟨clDC9, -1, 1⟩ ::
      List.replicate 1022 emptyFrameV
    frameIndex := 2 }

theorem c9_base_stepN : stepN 4 (vmNew bcC9L) = some c9Base := by rfl

/-- The invariant after `k` complete body iterations: `k+1` copies of the
closure on the stack, the fresh body frame at index `k+1`, frame index
`k+2`. -/
def C9Inv (k : Nat) (s : VMState) : Prop :=
  s.stack = List.replicate (k+1) closVC9 ++ List.replicate (2047 - k) .vnull ∧
  s.sp = k + 1 ∧
  s.frames.length = 1024 ∧
  s.frames.get? (k+1) = some ⟨clDC9, -1, (k+1 : Nat)⟩ ∧
  s.frameIndex = k + 2

theorem c9_base_inv : C9Inv 0 c9Base := by
  refine ⟨rfl, rfl, ?_, rfl, rfl⟩
  show (⟨mainClosureC9, 11, 0⟩ :: ⟨clDC9, -1, 1⟩ ::
    List.replicate 1022 emptyFrameV : List Frame).length = 1024
  simp only [List.length_cons, List.length_replicate]

theorem c9_stepA {k : Nat} (hk : k ≤ 1022) {s : VMState}
    (hsp : s.sp = k + 1)
    (hlen : s.frames.length = 1024)
    (hfr : s.frames.get? (k+1) = some ⟨clDC9, -1, (k+1 : Nat)⟩)
    (hfi : s.frameIndex = k + 2) :
    s.currentFrame = .ok ⟨clDC9, -1, (k+1 : Nat)⟩ ∧
    step s = .ok { s with
      stack := s.stack.set (k+1) closVC9,
      sp := k + 1 + 1,
      frames := s.frames.set (k+1) ⟨clDC9, 0, (k+1 : Nat)⟩ } := by
  have h20 : ¬ (k + 2 = 0) := by omega
  have h21 : k + 2 - 1 = k + 1 := by omega
  have hklt : k + 1 < 1024 := by omega
  have hcf : s.currentFrame = .ok ⟨clDC9, -1, (k+1 : Nat)⟩ := by
    unfold VMState.currentFrame
    rw [hfi, if_neg h20, h21, hfr]
  refine ⟨hcf, ?_⟩
  simp only [step, hcf, VRes.bindOk, Int.reduceAdd, Int.reduceLT, reduceIte,
    Int.reduceToNat, Frame.instrs, clDC9, fnC9, readU8, List.get?,
    Opcode.ofByte, stepCurrentClosure]
  have hsplt : ¬ (k + 1 ≥ 2048) := by omega
  simp only [VMState.updateFrame, hfi, h21, hfr, VMState.currentFrame, h20,
    reduceIte, if_false, List.get?_eq_getElem?, List.getElem?_set_self,
    hlen, hklt, VMState.push, VMState.pop, STACK_SIZE, hsp, hsplt,
    VRes.bindOk, closVC9, clDC9, fnC9]

theorem c9_stepB {k : Nat} (hk : k ≤ 1021) {t : VMState}
    (hstk : t.stack.get? (k+1) = some closVC9)
    (hsp : t.sp = k + 2)
    (hlen : t.frames.length = 1024)
    (hfr : t.frames.get? (k+1) = some ⟨clDC9, 0, (k+1 : Nat)⟩)
    (hfi : t.frameIndex = k + 2) :
    t.currentFrame = .ok ⟨clDC9, 0, (k+1 : Nat)⟩ ∧
    step t = .ok { t with
      frames := (t.frames.set (k+1) ⟨clDC9, 2, (k+1 : Nat)⟩).set (k+2)
        ⟨clDC9, -1, (k+2 : Nat)⟩,
      frameIndex := k + 2 + 1 } := by
  have h20 : ¬ (k + 2 = 0) := by omega
  have h21 : k + 2 - 1 = k + 1 := by omega
  have hklt : k + 1 < 1024 := by omega
  have hfilt : k + 2 < 1024 := by omega
  have h00 : ((0 : Nat) ≠ 0) = False := by simp
  have hcf : t.currentFrame = .ok ⟨clDC9, 0, (k+1 : Nat)⟩ := by
    unfold VMState.currentFrame
    rw [hfi, if_neg h20, h21, hfr]
  refine ⟨hcf, ?_⟩
  simp only [step, hcf, VRes.bindOk, Int.reduceAdd, Int.reduceLT, reduceIte,
    Int.reduceToNat, Frame.instrs, clDC9, fnC9, readU8, List.get?,
    Opcode.ofByte, stepCall]
  simp only [VMState.updateFrame, hfi, h21, hfr, List.get?_eq_getElem?,
    List.getElem?_set_self, List.length_set, hlen, hklt, List.set_set,
    VRes.bindOk]
  simp only [executeCall, hsp, Nat.sub_zero, Nat.add_zero, h21, hstk,
    closVC9, callClosure, clDC9, fnC9, Frame.new, ne_eq, h00, if_false,
    reduceIte, VMState.pushFrame, MAX_FRAMES, hfilt, if_true, VRes.bindOk]
  have hge : ¬ (k + 2 < 1) := by omega
  simp only [Nat.reduceAdd, Int.reduceAdd, hge, if_false, reduceIte]


theorem c9_two_step {k : Nat} (hk : k ≤ 1021) {s : VMState} (h : C9Inv k s) :
    ∃ s₂, stepN 2 s = some s₂ ∧ C9Inv (k+1) s₂ := by
  obtain ⟨hst, hsp, hlen, hfr, hfi⟩ := h
  obtain ⟨hcfA, hstepA⟩ := c9_stepA (by omega) hsp hlen hfr hfi
  have hklt : k + 1 < 1024 := by omega
  have hstl : s.stack.length = 2048 := by
    rw [hst]
    simp only [List.length_append, List.length_replicate]
    omega
  have hstlt : k + 1 < s.stack.length := by omega
  have hstkB : (s.stack.set (k+1) closVC9).get? (k+1) = some closVC9 := by
    rw [List.get?_eq_getElem?, List.getElem?_set_self hstlt]
  have hspB : ({ s with
      stack := s.stack.set (k+1) closVC9,
      sp := k + 1 + 1,
      frames := s.frames.set (k+1) ⟨clDC9, 0, (k+1 : Nat)⟩ } : VMState).sp
      = k + 2 := by
    show k + 1 + 1 = k + 2
    omega
  have hlenB : (s.frames.set (k+1) ⟨clDC9, 0, (k+1 : Nat)⟩).length = 1024 := by
    rw [List.length_set, hlen]
  have hfrlt : k + 1 < s.frames.length := by omega
  have hfrB : (s.frames.set (k+1) ⟨clDC9, 0, (k+1 : Nat)⟩).get? (k+1)
      = some ⟨clDC9, 0, (k+1 : Nat)⟩ := by
    rw [List.get?_eq_getElem?, List.getElem?_set_self hfrlt]
  obtain ⟨hcfB, hstepB⟩ := c9_stepB hk hstkB hspB hlenB hfrB hfi
  have hgA : (⟨clDC9, -1, (k+1 : Nat)⟩ : Frame).ip
      < ((⟨clDC9, -1, (k+1 : Nat)⟩ : Frame).instrs.length : Int) - 1 := by
    show ((-1 : Int) < ((8 : Nat) : Int) - 1)
    decide
  have hgB : (⟨clDC9, 0, (k+1 : Nat)⟩ : Frame).ip
      < ((⟨clDC9, 0, (k+1 : Nat)⟩ : Frame).instrs.length : Int) - 1 := by
    show ((0 : Int) < ((8 : Nat) : Int) - 1)
    decide
  rw [List.set_set] at hstepB
  refine ⟨{ s with
    stack := s.stack.set (k+1) closVC9,
    sp := k + 1 + 1,
    frames := (s.frames.set (k+1) ⟨clDC9, 2, (k+1 : Nat)⟩).set (k+2)
      ⟨clDC9, -1, (k+2 : Nat)⟩,
    frameIndex := k + 2 + 1 }, ?_, ?_⟩
  · rw [stepN_succ_of_step hcfA hgA hstepA 1,
      stepN_succ_of_step hcfB hgB hstepB 0]
    rfl
  · refine ⟨?_, ?_, ?_, ?_, ?_⟩
    · show s.stack.set (k+1) closVC9
        = List.replicate (k+1+1) closVC9 ++ List.replicate (2047 - (k+1)) .vnull
      rw [hst]
      rw [List.set_append]
      rw [if_neg (by simp only [List.length_replicate]; omega)]
      rw [List.length_replicate]
      rw [show k + 1 - (k + 1) = 0 from by omega]
      rw [show 2047 - k = (2046 - k) + 1 from by omega]
      rw [List.replicate_succ]
      simp only [List.set]
      rw [show 2047 - (k + 1) = 2046 - k from by omega]
      simp only [List.replicate_succ, List.cons_append,
        replicate_append_cons_self]
    · show k + 1 + 1 = k + 1 + 1
      rfl
    · show ((s.frames.set (k+1) ⟨clDC9, 2, (k+1 : Nat)⟩).set (k+2)
        ⟨clDC9, -1, (k+2 : Nat)⟩).length = 1024
      rw [List.length_set, List.length_set, hlen]
    · show ((s.frames.set (k+1) ⟨clDC9, 2, (k+1 : Nat)⟩).set (k+2)
        ⟨clDC9, -1, (k+2 : Nat)⟩).get? (k+1+1) = some ⟨clDC9, -1, (k+1+1 : Nat)⟩
      have hlt : k + 2 < ((s.frames.set (k+1) ⟨clDC9, 2, (k+1 : Nat)⟩)).length := by
        rw [List.length_set, hlen]; omega
      rw [show k + 1 + 1 = k + 2 from by omega]
      rw [List.get?_eq_getElem?, List.getElem?_set_self hlt]
    · show k + 2 + 1 = k + 1 + 2
      omega


theorem c9_reach : ∀ k, k ≤ 1022 →
    ∃ s, stepN (4 + 2 * k) (vmNew bcC9L) = some s ∧ C9Inv k s := by
  intro k
  induction k with
  | zero =>
    intro _
    refine ⟨c9Base, ?_, c9_base_inv⟩
    rw [show 4 + 2 * 0 = 4 from by norm_num]
    exact c9_base_stepN
  | succ k ih =>
    intro hk
    obtain ⟨s, hsN, hinv⟩ := ih (by omega)
    obtain ⟨s₂, h2, hinv₂⟩ := c9_two_step (by omega) hinv
    refine ⟨s₂, ?_, hinv₂⟩
    rw [show 4 + 2 * (k + 1) = (4 + 2 * k) + 2 from by ring, stepN_append hsN 2]
    exact h2

/-- The 1023rd nested call finds the frame array full and panics. -/
theorem c9_stepPanic {t : VMState}
    (hstk : t.stack.get? 1023 = some closVC9)
    (hsp : t.sp = 1024)
    (hlen : t.frames.length = 1024)
    (hfr : t.frames.get? 1023 = some ⟨clDC9, 0, (1023 : Nat)⟩)
    (hfi : t.frameIndex = 1024) :
    t.currentFrame = .ok ⟨clDC9, 0, (1023 : Nat)⟩ ∧
    step t = .panic "index out of bounds: the len is 1024 but the index is 1024" := by
  have hcf : t.currentFrame = .ok ⟨clDC9, 0, (1023 : Nat)⟩ := by
    unfold VMState.currentFrame
    rw [hfi, if_neg (by norm_num), show (1024 : Nat) - 1 = 1023 from by norm_num,
      hfr]
  refine ⟨hcf, ?_⟩
  simp only [step, hcf, VRes.bindOk, Int.reduceAdd, Int.reduceLT, reduceIte,
    Int.reduceToNat, Frame.instrs, clDC9, fnC9, readU8, List.get?,
    Opcode.ofByte, stepCall]
  have h00 : ((0 : Nat) ≠ 0) = False := by simp
  simp only [VMState.updateFrame, hfi, Nat.reduceSub, hfr,
    List.get?_eq_getElem?, List.getElem?_set_self, List.length_set, hlen,
    Nat.reduceLT, List.set_set, VRes.bindOk]
  simp only [executeCall, hsp, Nat.sub_zero, Nat.add_zero, Nat.reduceSub,
    Nat.reduceAdd, Nat.reduceLT, reduceIte, if_false, hstk, closVC9,
    callClosure, clDC9, fnC9, Frame.new, ne_eq, h00, VMState.pushFrame,
    MAX_FRAMES, VRes.bindOk]
  rfl

theorem c9_final_states :
    ∃ s₁, stepN 2049 (vmNew bcC9L) = some s₁ ∧
      s₁.currentFrame = .ok ⟨clDC9, 0, (1023 : Nat)⟩ ∧
      (∃ f, s₁.currentFrame = .ok f ∧ f.ip < (f.instrs.length : Int) - 1) ∧
      step s₁ = .panic "index out of bounds: the len is 1024 but the index is 1024" := by
  obtain ⟨s, hsN, hinv⟩ := c9_reach 1022 (by omega)
  obtain ⟨hst, hsp, hlen, hfr, hfi⟩ := hinv
  obtain ⟨hcfA, hstepA⟩ := c9_stepA (by omega) hsp hlen hfr hfi
  have hgA : (⟨clDC9, -1, (1022 + 1 : Nat)⟩ : Frame).ip
      < ((⟨clDC9, -1, (1022 + 1 : Nat)⟩ : Frame).instrs.length : Int) - 1 := by
    show ((-1 : Int) < ((8 : Nat) : Int) - 1)
    decide
  -- the state after the final CurrentClosure step
  have hstl : s.stack.length = 2048 := by
    rw [hst]
    simp only [List.length_append, List.length_replicate]
  have hstk₁ : (s.stack.set (1022 + 1) closVC9).get? 1023 = some closVC9 := by
    rw [show (1022 + 1 : Nat) = 1023 from rfl, List.get?_eq_getElem?,
      List.getElem?_set_self (by omega)]
  have hfr₁ : (s.frames.set (1022 + 1) ⟨clDC9, 0, (1022 + 1 : Nat)⟩).get? 1023
      = some ⟨clDC9, 0, (1023 : Nat)⟩ := by
    rw [show (1022 + 1 : Nat) = 1023 from rfl, List.get?_eq_getElem?,
      List.getElem?_set_self (by rw [hlen]; omega)]
  obtain ⟨hcfP, hstepP⟩ := c9_stepPanic (t := { s with
      stack := s.stack.set (1022 + 1) closVC9,
      sp := 1022 + 1 + 1,
      frames := s.frames.set (1022 + 1) ⟨clDC9, 0, (1022 + 1 : Nat)⟩ })
    hstk₁ (by show (1022 + 1 + 1 : Nat) = 1024; norm_num)
    (by show (s.frames.set (1022 + 1) ⟨clDC9, 0, (1022 + 1 : Nat)⟩).length = 1024
        rw [List.length_set, hlen])
    hfr₁
    (by show s.frameIndex = 1024; rw [hfi])
  refine ⟨_, ?_, hcfP, ⟨_, hcfP, by decide⟩, hstepP⟩
  rw [show (2049 : Nat) = (4 + 2 * 1022) + 1 from by norm_num,
    stepN_append hsN 1, stepN_succ_of_step hcfA hgA hstepA 0]
  rfl

/-! ## C3: `{[1]: 2}` — an unhashable hash key -/

def stmt1C3 : Statement :=
  .exprS (.lit (.hashL [(.lit (.arrayL [.lit (.integer 1)]), .lit (.integer 2))]))

def astC3 : List Statement := [stmt1C3]

def stC3 : CState :=
  ⟨[.integer 1, .integer 2], bTable,
   [⟨[0, 0, 0, 18, 0, 1, 0, 0, 1, 19, 0, 2, 2], ⟨.OpPop, 12⟩, ⟨.OpHash, 9⟩⟩],
   0⟩

def bcC3L : Bytecode :=
  ⟨[0, 0, 0, 18, 0, 1, 0, 0, 1, 19, 0, 2, 2], [.integer 1, .integer 2]⟩

theorem c3_stage1 : compileStmt 39 st0L stmt1C3 = .ok stC3 := by rfl

theorem c3_compile : compile 40 compilerNew (.program astC3) = .ok bcC3L := by
  rw [compilerNew_lit, compile_program]
  simp only [astC3]
  rw [compileStmts_cons 39 st0L stmt1C3 [], c3_stage1]
  simp only [CRes.bind_ok]
  rw [compileStmts_nil 38 stC3]
  simp only [CRes.bind_ok, CRes.pure_def]
  rfl

def mainClosureC3 : ClosureData := ⟨⟨bcC3L.instructions, 0, 0⟩, []⟩

/-- The VM state right before the `Hash` opcode executes: the array key
and the value 2 sit on the stack. -/
def sC3 : VMState :=
  { constants := [.integer 1, .integer 2]
    stack := .object (.array [.integer 1]) :: .integer 2 ::
      List.replicate 2046 .vnull
    sp := 2
    globals := List.replicate 65536 .vnull
    frames := ⟨mainClosureC3, 8, 0⟩ :: List.replicate 1023 emptyFrameV
    frameIndex := 1 }

theorem c3_prefix : stepN 3 (vmNew bcC3L) = some sC3 := by rfl

theorem c3_cf : sC3.currentFrame = .ok ⟨mainClosureC3, 8, 0⟩ := by rfl

theorem c3_panic :
    step sC3 = .panic "compiler must only emit hashable keys in hash literals" := by
  rfl

/-! ## C5: `len([1, 2, 3])` under the two compiler constructors -/

def stmt1C5 : Statement :=
  .exprS (.callE (.ident "len")
    [.lit (.arrayL [.lit (.integer 1), .lit (.integer 2), .lit (.integer 3)])])

def astC5 : List Statement := [stmt1C5]

def stC5 : CState :=
  ⟨[.integer 1, .integer 2, .integer 3], bTable,
   [⟨[26, 0, 0, 0, 0, 0, 0, 1, 0, 0, 2, 18, 0, 3, 21, 1, 2],
     ⟨.OpPop, 16⟩, ⟨.OpCall, 14⟩⟩], 0⟩

def bcC5L : Bytecode :=
  ⟨[26, 0, 0, 0, 0, 0, 0, 1, 0, 0, 2, 18, 0, 3, 21, 1, 2],
   [.integer 1, .integer 2, .integer 3]⟩

/-- The compiler state the first REPL iteration starts from: `main` seeds
the loop with a bare `SymbolTable::new()` and `new_with_state` installs it
verbatim, discarding the builtin definitions. -/
def stRepl : CState :=
  ⟨[], .mk [] [] 0 none, [⟨[], ⟨.OpNull, 0⟩, ⟨.OpNull, 0⟩⟩], 0⟩

theorem replState_lit : compilerNewWithState SymbolTable.new [] = stRepl := by rfl

theorem c5_stage1 : compileStmt 39 st0L stmt1C5 = .ok stC5 := by rfl

theorem c5_stage1_repl :
    compileStmt 39 stRepl stmt1C5 = .err "Undefined variable 'len'" := by rfl

theorem c5_compile : compile 40 compilerNew (.program astC5) = .ok bcC5L := by
  rw [compilerNew_lit, compile_program]
  simp only [astC5]
  rw [compileStmts_cons 39 st0L stmt1C5 [], c5_stage1]
  simp only [CRes.bind_ok]
  rw [compileStmts_nil 38 stC5]
  simp only [CRes.bind_ok, CRes.pure_def]
  rfl

theorem c5_compile_repl :
    compile 40 (compilerNewWithState SymbolTable.new []) (.program astC5)
      = .err "Undefined variable 'len'" := by
  rw [replState_lit, compile_program]
  simp only [astC5]
  rw [compileStmts_cons 39 stRepl stmt1C5 [], c5_stage1_repl]
  simp only [CRes.bind_err]

/-! ## C2: the Let statement compiles its initializer before defining -/

/-- **C2** (amended) The spec says `define(name)` runs before the
initializer is compiled so that a named self-reference resolves.  In the
code the initializer is compiled first: a `let` whose initializer is a bare
reference to the name being bound fails with an Undefined-variable error
whenever the name is not already resolvable. -/
theorem c2_amended (fuel : Nat) (st : CState) (name : String)
    (h : (st.symbolTable.resolve name).1 = none) :
    compileStmt (fuel + 1 + 1) st (.letS (.IDENTIFIER name) (.ident name))
      = .err ("Undefined variable '" ++ name ++ "'") := by
  cases hr : st.symbolTable.resolve name with
  | mk o t =>
    rw [hr] at h
    simp only at h
    subst h
    simp only [compileStmt, compileExpr, hr, CRes.bind_err]

theorem c2_counterexample :
    compile 40 compilerNew (.program [.letS (.IDENTIFIER "x") (.ident "x")])
      = .err "Undefined variable 'x'" := by rfl

theorem c2_witness :
    (compilerNew.symbolTable.resolve "x").1 = none ∧
    compileStmt 6 compilerNew (.letS (.IDENTIFIER "x") (.ident "x"))
      = .err "Undefined variable 'x'" :=
  ⟨by rfl, c2_amended 4 compilerNew "x" (by rfl)⟩

/-! ## C4: constant folding panics on i64 overflow -/

theorem c4_counterexample :
    compile 40 compilerNew (.program
      [.exprS (.infixE .PLUS (.lit (.integer 9223372036854775807))
        (.lit (.integer 1)))])
      = .panic "attempt to add with overflow" := by rfl

/-- **C4** (amended) Constant folding of `+` on two integer literals
returns the folded constant exactly when the mathematical sum fits in an
i64, and otherwise panics (debug-build Rust overflow semantics) instead of
returning a `CompileError` — so `compile` is not panic-free on well-formed
ASTs. -/
theorem c4_amended (l r : Int) (fuel : Nat) (st : CState) :
    compileExpr (fuel + 1) st
        (.infixE .PLUS (.lit (.integer l)) (.lit (.integer r)))
      = (if inI64 (l + r) then
          (st.addConstant (.integer (l + r))).2.emitD .OpConst
            [(st.addConstant (.integer (l + r))).1]
         else .panic "attempt to add with overflow") := by
  by_cases hio : inI64 (l + r) = true
  · simp only [compileExpr, tryFoldBinary, i64Add, hio, if_true, reduceIte,
      CRes.bind_ok]
  · have hio2 : inI64 (l + r) = false := by
      cases hb : inI64 (l + r)
      · rfl
      · exact absurd hb hio
    simp only [compileExpr, tryFoldBinary, i64Add, hio2, Bool.false_eq_true,
      if_false, reduceIte, CRes.bind_panic]

/-! ## C6: the tail-call rewrite condition -/

/-- **C6** For a named function (nonempty name), `is_tail_recursive_call`
holds exactly when the last top-level body statement is an expression
statement calling the identifier equal to the function's own name; and the
function-body epilogue rewrites the previous instruction's opcode byte to
`TailCall` exactly when that condition holds together with "last emitted is
Pop and previous is Call", after which the Pop-to-ReturnValue replacement
and the Return epilogue proceed as normal. -/
theorem c6_tailcall_rewrite (st : CState) (body : List Statement)
    (name : String) (hname : name ≠ "") :
    (isTailRecursiveCall body name = true
      ↔ ∃ args, body.getLast? = some (.exprS (.callE (.ident name) args))) ∧
    finalizeFunctionBody st body name
      = (do
          let st ←
            if st.lastInstructionIs .OpPop then
              (if isTailRecursiveCall body name = true
                  ∧ st.scope.previousInstruction.opcode = .OpCall then
                st.setScope { st.scope with
                  instructions := st.scope.instructions.set
                    st.scope.previousInstruction.position
                    Opcode.OpTailCall.toByte }
              else st).replaceLastPopWithReturn
            else pure st
          if ¬ st.lastInstructionIs .OpReturnValue then st.emitD .OpReturn []
          else pure st) := by
  constructor
  · constructor
    · intro htail
      unfold isTailRecursiveCall at htail
      rw [if_neg hname] at htail
      split at htail
      next id args heq =>
        have hid : id = name := of_decide_eq_true htail
        subst hid
        exact ⟨args, heq⟩
      next => cases htail
    · rintro ⟨args, hlast⟩
      unfold isTailRecursiveCall
      rw [if_neg hname, hlast]
      simp
  · unfold finalizeFunctionBody
    by_cases h1 : isTailRecursiveCall body name = true
    · by_cases h2 : st.scope.previousInstruction.opcode = .OpCall
      · simp only [h1, h2, if_true, reduceIte, true_and, and_true, eq_self_iff_true]
      · simp only [h1, h2, if_true, reduceIte, true_and, and_false, if_false]
    · have h1f : isTailRecursiveCall body name = false := by
        cases hb : isTailRecursiveCall body name
        · rfl
        · exact absurd hb h1
      simp only [h1f, if_false, reduceIte, false_and, Bool.false_eq_true]

theorem c6_witness :
    isTailRecursiveCall [Statement.exprS (.callE (.ident "f") [])] "f" = true
      ↔ ∃ args, ([Statement.exprS (.callE (.ident "f") [])].getLast?
          = some (.exprS (.callE (.ident "f") args))) :=
  (c6_tailcall_rewrite st0L [Statement.exprS (.callE (.ident "f") [])] "f"
    (by decide)).1

/-! ## C7: the Bang opcode -/

/-- **C7** `execute_bang_operation`: when the popped operand is
`Boolean b` the VM pushes `Boolean (not b)`, and for every non-boolean
operand it pushes `Boolean false`; it never returns a `VMError` (the push
is in bounds because pop just freed a slot). -/
theorem c7_bang (s s₁ : VMState) (v : Value) (hpop : s.pop = .ok (v, s₁))
    (hsp : s₁.sp < STACK_SIZE) :
    executeBangOperation s
      = s₁.push (.boolean (match v with | .boolean b => !b | _ => false)) ∧
    ∀ e, executeBangOperation s ≠ .err e := by
  have h1 : executeBangOperation s
      = s₁.push (.boolean (match v with | .boolean b => !b | _ => false)) := by
    simp only [executeBangOperation, hpop, VRes.bindOk]
    cases v <;> rfl
  refine ⟨h1, fun e hcontra => ?_⟩
  rw [h1] at hcontra
  unfold VMState.push at hcontra
  rw [if_neg (by omega)] at hcontra
  cases hcontra

def c7WitState : VMState := ⟨[], [.integer 7], 1, [], [], 0⟩

theorem c7_bang_witness :
    executeBangOperation c7WitState
      = ({ c7WitState with sp := 0 } : VMState).push (.boolean false) ∧
    ∀ e, executeBangOperation c7WitState ≠ .err e :=
  c7_bang c7WitState { c7WitState with sp := 0 } (.integer 7) (by rfl)
    (by decide)

/-! ## C8: `make` truncates oversized operands silently -/

theorem c8_counterexample : make .OpConst [70000] = .ok [0, 17, 112] := by rfl

theorem encodeOperands_ok (pairs : List (Nat × Nat))
    (h : ∀ p ∈ pairs, p.2 = 1 ∨ p.2 = 2) :
    ∃ bs, encodeOperands pairs = .ok bs := by
  induction pairs with
  | nil => exact ⟨[], rfl⟩
  | cons p rest ih =>
    obtain ⟨bs, hbs⟩ := ih (fun q hq => h q (List.mem_cons_of_mem p hq))
    obtain ⟨o, w⟩ := p
    rcases h (o, w) (List.mem_cons_self (o, w) rest) with h1 | h2
    · simp only at h1
      subst h1
      refine ⟨o % 256 :: bs, ?_⟩
      simp only [encodeOperands, hbs]
      rfl
    · simp only at h2
      subst h2
      refine ⟨(o % 65536) / 256 :: (o % 65536) % 256 :: bs, ?_⟩
      simp only [encodeOperands, hbs]
      rfl

theorem widths_valid (op : Opcode) : ∀ w ∈ op.widths, w = 1 ∨ w = 2 := by
  cases op <;> decide

/-- **C8** (amended) `make` never rejects an oversized operand: for any
operand list of the declared arity it succeeds, silently truncating each
operand to its declared width (`operand as u16` / `operand as u8`); the
only `Err` cases are arity mismatch and an unsupported width. -/
theorem c8_amended (op : Opcode) (operands : List Nat)
    (hlen : operands.length = op.widths.length) :
    ∃ bs, make op operands = .ok bs := by
  unfold make
  rw [hlen]
  rw [if_neg (by simp)]
  obtain ⟨bs, hbs⟩ := encodeOperands_ok (operands.zip op.widths)
    (fun p hp => widths_valid op p.2 (List.of_mem_zip hp).2)
  rw [hbs]
  exact ⟨op.toByte :: bs, rfl⟩

theorem c8_witness :
    ([(70000 : Nat)].length = Opcode.OpConst.widths.length) ∧
    ∃ bs, make .OpConst [70000] = .ok bs :=
  ⟨by rfl, c8_amended .OpConst [70000] (by rfl)⟩

end Monkey

open Monkey in
/-- **C1** The spec claims that `let x = 0; while (x < 5) { let x = x + 1 }; x`
terminates with `Integer(5)` because the inner `let` rebinds the same global.
In the code it does not: `SymbolTable::define` allocates a fresh slot for the
rebinding (slot 1), the loop condition keeps reading the untouched slot 0, and
the compiled program never halts — `runFuel` times out for every fuel, i.e.
`VM::run` loops forever instead of returning `Integer(5)`. -/
theorem c1_while_let_rebinding_loops_forever :
    compile 40 compilerNew (.program astC1) = .ok bcC1L ∧
    ∀ n, runFuel n (vmNew bcC1L) = .timeout := by
  refine ⟨c1_compile, fun n => ?_⟩
  have hdiv : ∀ m, runFuel m sLoopC1 = .timeout :=
    runFuel_timeout_of_cycle (by decide) c1_cycle
  by_cases hn : n ≤ 11
  · exact runFuel_timeout_of_le c1_prefix n hn
  · have hsplit : n = (n - 11) + 11 := by omega
    rw [hsplit, runFuel_shift c1_prefix (n - 11)]
    exact hdiv (n - 11)

open Monkey in
/-- **C9** A program of non-tail self-calls deeper than the 1024-slot frame
array — `let f = fn() { f() + 0 }; f();` — compiles, and running it never
returns a `VMError` (in particular not StackOverflow): `push_frame` writes
`frames[frame_index]` unguarded, so when the frame array fills up the run
aborts with an index-out-of-bounds panic; every fuel yields either timeout
or that panic, never an error or a halt. -/
theorem c9_frame_exhaustion_panics_unguarded :
    compile 40 compilerNew (.program astC9) = .ok bcC9L ∧
    runFuel 2050 (vmNew bcC9L)
      = .panicOut "index out of bounds: the len is 1024 but the index is 1024" ∧
    ∀ n, runFuel n (vmNew bcC9L) = .timeout ∨
      runFuel n (vmNew bcC9L)
        = .panicOut "index out of bounds: the len is 1024 but the index is 1024" := by
  obtain ⟨s₁, hsN, hcf, ⟨f, hcf₂, hg⟩, hpanic⟩ := c9_final_states
  have hrun : ∀ m, runFuel (m + 1) s₁
      = .panicOut "index out of bounds: the len is 1024 but the index is 1024" :=
    runFuel_panic_of_step hcf₂ hg hpanic
  refine ⟨c9_compile, ?_, ?_⟩
  · rw [show (2050 : Nat) = 1 + 2049 from by norm_num, runFuel_shift hsN 1]
    exact hrun 0
  · intro n
    by_cases hn : n ≤ 2049
    · exact Or.inl (runFuel_timeout_of_le hsN n hn)
    · refine Or.inr ?_
      rw [show n = (n - 2049) + 2049 from by omega, runFuel_shift hsN (n - 2049),
        show n - 2049 = (n - 2050) + 1 from by omega]
      exact hrun (n - 2050)

/-- **C10** Every call to `SymbolTable::define` returns a symbol whose index
equals the scope's current `num_definitions` count and increments that count
by exactly one — unconditionally, hence also when the name is already bound
in that scope, so a redefinition allocates a fresh sequential slot index
rather than reusing the old one; `define_builtin` and
`define_function_name` leave `num_definitions` unchanged. -/
theorem c10_define_allocates_fresh_index (t : Monkey.SymbolTable)
    (name : String) (bIdx : Nat) :
    (t.define name).1.index = t.numDefinitions ∧
    (t.define name).2.numDefinitions = t.numDefinitions + 1 ∧
    (t.defineBuiltin bIdx name).2.numDefinitions = t.numDefinitions ∧
    (t.defineFunctionName name).2.numDefinitions = t.numDefinitions := by
  cases t with
  | mk s f n o =>
    refine ⟨rfl, rfl, rfl, rfl⟩

open Monkey in
/-- **C3** The spec says a non-hashable key under the `Hash` opcode makes
`VM::run` return a `VMError` rather than aborting any other way.  In the
code `build_hash` unwraps the key conversion with `expect`, so the program
`{[1]: 2}` compiles but its run panics with the `expect` message and never
returns a `VMError` at any fuel. -/
theorem c3_unhashable_key_panics_not_vmerror :
    compile 40 compilerNew (.program astC3) = .ok bcC3L ∧
    runFuel 5 (vmNew bcC3L)
      = .panicOut "compiler must only emit hashable keys in hash literals" ∧
    ∀ n, runFuel n (vmNew bcC3L) = .timeout ∨
      runFuel n (vmNew bcC3L)
        = .panicOut "compiler must only emit hashable keys in hash literals" := by
  have hg : (⟨mainClosureC3, 8, 0⟩ : Frame).ip
      < ((⟨mainClosureC3, 8, 0⟩ : Frame).instrs.length : Int) - 1 := by decide
  have hrun : ∀ m, runFuel (m + 1) sC3
      = .panicOut "compiler must only emit hashable keys in hash literals" :=
    runFuel_panic_of_step c3_cf hg c3_panic
  refine ⟨c3_compile, ?_, ?_⟩
  · rw [show (5 : Nat) = 2 + 3 from by norm_num, runFuel_shift c3_prefix 2]
    exact hrun 1
  · intro n
    by_cases hn : n ≤ 3
    · exact Or.inl (runFuel_timeout_of_le c3_prefix n hn)
    · refine Or.inr ?_
      rw [show n = (n - 3) + 3 from by omega, runFuel_shift c3_prefix (n - 3),
        show n - 3 = (n - 4) + 1 from by omega]
      exact hrun (n - 4)

open Monkey in
/-- **C5** A compiler built by `Compiler::new()` has every builtin defined,
and `len([1,2,3])` compiles.  But the claim also covers the REPL:
`main` seeds the loop with a bare `SymbolTable::new()` and
`Compiler::new_with_state` installs the caller's table verbatim (it
overwrites the builtin-populated table from `Compiler::new()`), so the
same input fails to compile in the REPL with an Undefined-variable
error, contradicting the claim. -/
theorem c5_new_with_state_discards_builtins :
    compile 40 compilerNew (.program astC5) = .ok bcC5L ∧
    compile 40 (compilerNewWithState SymbolTable.new []) (.program astC5)
      = .err "Undefined variable 'len'" :=
  ⟨c5_compile, c5_compile_repl⟩
